import Mathlib

/-!
Shallow embedding of the dora daemon engine
(`src/binaries/daemon/src/lib.rs`): the event-loop state (`Daemon`),
the per-dataflow state (`RunningDataflow`), and the event handlers
(`handle_coordinator_event`, `spawn_dataflow`, `handle_node_event`,
`handle_dora_event`, the `Drop` and `WatchdogInterval` arms of
`run_inner`), together with theorems settling the spec claims.

Modelling conventions:
* `HashMap`/`BTreeMap` become association lists (`List (K × V)`) with
  lookup/insert/erase helpers; `BTreeSet` becomes a duplicate-free list.
* Opaque identifiers (`Uuid`, shared-memory OS ids, `DropToken`,
  `flume::Sender` handles) become `Nat`; fresh-id generation
  (`DropToken::generate`, `Uuid::new_v4`, `ShmemConf::create`) is
  modelled by a single monotone counter `next_id` in the engine state,
  which is faithful because the code only ever compares these ids for
  equality and relies on their freshness.
* `Rc<Shmem>` reference counting: after a handler returns, the only
  live strong references to a sent-out segment are the entries of
  `sent_out_shared_memory`, so `Rc::try_unwrap` succeeding on `Drop`
  is modelled as "no remaining table entry names the same segment".
* Channel sends are external nondeterminism: each event carries an
  oracle (`Nat → SendOutcome`, indexed by receiver position) telling
  how each attempted enqueue would end (success, closed, timeout).
  The sends a handler attempts are recorded as an `Action` list.
-/

deriving instance DecidableEq for Except

/-- `NodeId`: opaque short string. -/
abbrev NodeId := String

/-- `DataId`: opaque short string. -/
abbrev DataId := String

/-- `DataflowId` (`Uuid`): opaque 128-bit id, modelled as `Nat`. -/
abbrev DataflowId := Nat

/-- `DropToken`: opaque unique handle, modelled as `Nat`. -/
abbrev DropToken := Nat

/-- Shared-memory segment (a `Shmem` allocation), identified by its
OS-level id; modelled as `Nat`. -/
abbrev SegmentId := Nat

/-- Key of `prepared_messages` (`type MessageId = String` in the
source, holding either a shared-memory OS id or a fresh `Uuid`
string); both are opaque fresh ids, modelled as `Nat`. -/
abbrev MessageId := Nat

/-- `dora_message::Metadata`: opaque timestamped metadata. -/
abbrev Metadata := Nat

/-- A `flume::Sender` handle, identified by an opaque id. -/
abbrev Chan := Nat

/-- `type OutputId = (NodeId, DataId)`. -/
abbrev OutputId := NodeId × DataId

/-- `type InputId = (NodeId, DataId)`. -/
abbrev InputId := NodeId × DataId

/-- First-match lookup in an association list (`HashMap::get`). -/
def alookup {K V : Type} [DecidableEq K] : List (K × V) → K → Option V
  | [], _ => none
  | (k, v) :: rest, key => if k = key then some v else alookup rest key

/-- Insert-or-replace in an association list (`HashMap::insert`). -/
def aInsert {K V : Type} [DecidableEq K] (key : K) (val : V) :
    List (K × V) → List (K × V)
  | [] => [(key, val)]
  | (k, v) :: rest =>
    if k = key then (key, val) :: rest else (k, v) :: aInsert key val rest

/-- Remove the binding of a key (`HashMap::remove`). A `HashMap` holds
at most one binding per key, so removing all matches is the same as
removing the one match. -/
def aErase {K V : Type} [DecidableEq K] (key : K) (m : List (K × V)) :
    List (K × V) :=
  m.filter (fun p => decide (p.1 ≠ key))

/-- The keys of an association list. -/
def akeys {K V : Type} (m : List (K × V)) : List K := m.map Prod.fst

/-- Add an element to a list-modelled set (`BTreeSet::insert`). -/
def sInsert {A : Type} [DecidableEq A] (a : A) (s : List A) : List A :=
  if a ∈ s then s else s ++ [a]

/-- `daemon_messages::InputData`: reference to a shared-memory segment
sent along with an `Input` event. -/
structure InputData where
  shared_memory_id : SegmentId
  len : Nat
  drop_token : DropToken
deriving DecidableEq, Repr

/-- `daemon_messages::NodeEvent`: events delivered to a subscribed
node over its subscribe channel. -/
inductive NodeEventMsg where
  | input (id : DataId) (metadata : Metadata) (data : Option InputData)
  | inputClosed (id : DataId)
  | stop
deriving DecidableEq, Repr

/-- `daemon_messages::ControlReply`: replies on a node's one-shot
reply channel. -/
inductive ControlReply where
  | result (r : Except String Unit)
  | preparedMessage (shared_memory_id : MessageId)
deriving DecidableEq, Repr

/-- `daemon_messages::DaemonCoordinatorReply`. -/
inductive DaemonCoordinatorReply where
  | spawnResult (r : Except String Unit)
  | destroyResult (r : Except String Unit)
  | watchdogAck
deriving DecidableEq, Repr

/-- Observable side effects of a handler: channel sends (with the
timeout, in milliseconds, that guards the enqueue — `none` for a plain
awaited `send_async`), one-shot replies, and coordinator events. -/
inductive EngineAction where
  | sendNodeEvent (chan : Chan) (ev : NodeEventMsg) (timeoutMs : Option Nat)
  | reply (r : ControlReply)
  | coordReply (r : DaemonCoordinatorReply)
  | allNodesFinished (dataflow_id : DataflowId)
deriving DecidableEq, Repr

/-- Outcome of one attempted channel enqueue, as decided by the
environment: `Ok(Ok(()))`, `Ok(Err(SendError))` (receiver closed), or
`Err(Elapsed)` (timeout). -/
inductive SendOutcome where
  | success
  | closedErr
  | timeoutErr
deriving DecidableEq, Repr

/-- `PreparedMessage` (source line 636): a pending output between
`PrepareOutputMessage` and `SendOutMessage`; `data` holds the
allocated segment and its byte length, if any. -/
structure PreparedMessage where
  output_id : DataId
  metadata : Metadata
  data : Option (SegmentId × Nat)
deriving DecidableEq, Repr

/-- `RunningDataflow` (source line 642). `_timer_handles` is omitted:
it holds opaque task handles that never influence the engine state. -/
structure RunningDataflow where
  subscribe_channels : List (NodeId × Chan) := []
  mappings : List (OutputId × List InputId) := []
  timers : List (Nat × List InputId) := []
  open_inputs : List (NodeId × List DataId) := []
  running_nodes : List NodeId := []
deriving DecidableEq, Repr

/-- The engine state (`struct Daemon`, source line 41). `port`,
`machine_id` and `dora_events_tx` are omitted (they never influence
the state transitions the claims are about); `coordinator_addr` is
kept as a flag. `next_id` is the fresh-id counter (see module
comment). -/
structure Daemon where
  prepared_messages : List (MessageId × PreparedMessage) := []
  sent_out_shared_memory : List (DropToken × SegmentId) := []
  running : List (DataflowId × RunningDataflow) := []
  coordinator_addr : Bool := false
  exit_when_done : Option (List (DataflowId × NodeId)) := none
  next_id : Nat := 0
deriving DecidableEq, Repr

/-- `dora_core::config::InputMapping`. -/
inductive InputMapping where
  | user (source : NodeId) (output : DataId) (operator : Option String)
  | timer (interval : Nat)
deriving DecidableEq, Repr

/-- `daemon_messages::SpawnNodeParams`, restricted to the part the
engine reads (`params.node.run_config.inputs`). -/
structure SpawnNodeParams where
  inputs : List (DataId × InputMapping)
deriving DecidableEq, Repr

/-- `DaemonNodeEvent` (source line 672). The oracle arguments model
the environment: `reply_delivered` is whether the one-shot reply
channel is still open, `outcomes` tells how each attempted channel
enqueue ends, `alloc_ok` whether shared-memory allocation succeeds. -/
inductive DaemonNodeEvent where
  | prepareOutputMessage (output_id : DataId) (metadata : Metadata)
      (data_len : Nat) (alloc_ok : Bool) (reply_delivered : Bool)
  | sendOutMessage (id : MessageId) (outcomes : Nat → SendOutcome)
  | stopped
  | subscribe (event_sender : Chan)

/-- `DaemonCoordinatorEvent`; `spawn_ok` models the external
`spawn::spawn_node` call's success per node. -/
inductive DaemonCoordinatorEvent where
  | spawn (dataflow_id : DataflowId)
      (nodes : List (NodeId × SpawnNodeParams)) (spawn_ok : NodeId → Bool)
  | stopDataflow (dataflow_id : DataflowId)
  | destroy
  | watchdogCmd

/-- `DoraEvent` (source line 688). -/
inductive DoraEvent where
  | timer (dataflow_id : DataflowId) (interval : Nat) (metadata : Metadata)
      (outcomes : Nat → SendOutcome)
  | spawnedNodeResult (dataflow_id : DataflowId) (node_id : NodeId)
      (result : Except String Unit)

/-- How one watchdog round trip ends: `coordinator::send_event`
(connect + send), `tcp_receive`, or `serde_json::from_slice` can
fail. -/
inductive WatchdogOutcome where
  | ok
  | connectSendErr
  | receiveErr
  | parseErr
deriving DecidableEq, Repr

/-- `enum RunStatus`. -/
inductive RunStatus where
  | continueRun
  | exitRun
deriving DecidableEq, Repr

/-- `map.entry(key).or_default().insert(a)`: add `a` to the set stored
under `key`, creating the entry if missing. -/
def setEntryInsert {K A : Type} [DecidableEq K] [DecidableEq A]
    (key : K) (a : A) (m : List (K × List A)) : List (K × List A) :=
  aInsert key (sInsert a ((alookup m key).getD [])) m

/-- The inner input loop of `spawn_dataflow` (source lines 302-327)
for one node: record each input in `open_inputs` and either in
`mappings` (rejecting sub-operator inputs) or in `timers`. -/
def spawn_inputs (node_id : NodeId) :
    List (DataId × InputMapping) → RunningDataflow →
    RunningDataflow × Except String Unit
  | [], df => (df, .ok ())
  | (input_id, mapping) :: rest, df =>
    let df := { df with open_inputs := setEntryInsert node_id input_id df.open_inputs }
    match mapping with
    | .user source output operator =>
      if operator.isSome then (df, .error "operators are not supported")
      else
        let df := { df with
          mappings := setEntryInsert (source, output) (node_id, input_id) df.mappings }
        spawn_inputs node_id rest df
    | .timer interval =>
      let df := { df with
        timers := setEntryInsert interval (node_id, input_id) df.timers }
      spawn_inputs node_id rest df

/-- The per-node loop of `spawn_dataflow` (source lines 300-332):
insert the node into `running_nodes`, process its inputs, then invoke
the spawner adapter (modelled by the `spawn_ok` oracle; the adapter
itself lives in the `spawn` module, outside the embedded file). An
error aborts the loop but keeps the partial state, as in the source. -/
def spawn_nodes (spawn_ok : NodeId → Bool) :
    List (NodeId × SpawnNodeParams) → RunningDataflow →
    RunningDataflow × Except String Unit
  | [], df => (df, .ok ())
  | (node_id, params) :: rest, df =>
    let df := { df with running_nodes := sInsert node_id df.running_nodes }
    match spawn_inputs node_id params.inputs df with
    | (df, .error e) => (df, .error e)
    | (df, .ok ()) =>
      if spawn_ok node_id then spawn_nodes spawn_ok rest df
      else (df, .error ("failed to spawn node `" ++ node_id ++ "`"))

/-- `Daemon::spawn_dataflow` (source line 289): reject a duplicate
`DataflowId`, otherwise install a fresh `RunningDataflow` and run the
per-node loop; on failure the partially-installed dataflow stays in
`running` (no rollback). The timer tasks started at the end only push
future `DoraEvent::Timer` events and keep handles; they change no
engine state here. -/
def spawn_dataflow (st : Daemon) (dataflow_id : DataflowId)
    (nodes : List (NodeId × SpawnNodeParams)) (spawn_ok : NodeId → Bool) :
    Daemon × Except String Unit :=
  match alookup st.running dataflow_id with
  | some _ =>
    (st, .error ("there is already a running dataflow with ID `" ++
      toString dataflow_id ++ "`"))
  | none =>
    let (df, result) := spawn_nodes spawn_ok nodes {}
    ({ st with running := aInsert dataflow_id df st.running }, result)

/-- `Daemon::handle_coordinator_event` (source line 250). Returns the
updated state, the channel sends performed (for `StopDataflow`), the
reply, and the `RunStatus`. -/
def handle_coordinator_event (st : Daemon) (event : DaemonCoordinatorEvent) :
    Daemon × List EngineAction × DaemonCoordinatorReply × RunStatus :=
  match event with
  | .spawn dataflow_id nodes spawn_ok =>
    let (st', result) := spawn_dataflow st dataflow_id nodes spawn_ok
    (st', [], .spawnResult result, .continueRun)
  | .stopDataflow dataflow_id =>
    match alookup st.running dataflow_id with
    | none =>
      (st, [],
       .spawnResult (.error ("no running dataflow with ID `" ++
         toString dataflow_id ++ "`")),
       .continueRun)
    | some dataflow =>
      let acts := dataflow.subscribe_channels.map
        (fun p => EngineAction.sendNodeEvent p.2 .stop none)
      let dataflow := { dataflow with subscribe_channels := [] }
      ({ st with running := aInsert dataflow_id dataflow st.running },
       acts, .spawnResult (.ok ()), .continueRun)
  | .destroy => (st, [], .destroyResult (.ok ()), .exitRun)
  | .watchdogCmd => (st, [], .watchdogAck, .continueRun)

/-- State threaded through the fan-out loop of `SendOutMessage`:
the engine's `sent_out_shared_memory` table, the fresh-id counter
(`DropToken::generate`), the `closed` receiver list, and the sends
performed so far. -/
structure FanState where
  sent : List (DropToken × SegmentId)
  nextId : Nat
  closed : List NodeId
  acts : List EngineAction
deriving Repr

/-- The fan-out loop of `SendOutMessage` (source lines 439-471): for
each local receiver that has a subscribe channel, mint a `DropToken`,
attempt the `Input` enqueue under a 10 ms timeout, and record the
token on success-with-segment, the receiver on closed-channel, and
nothing on timeout. `outcomes n` is the environment's verdict for the
`n`-th receiver of the list. -/
def fanOutLoop (subs : List (NodeId × Chan)) (metadata : Metadata)
    (data : Option (SegmentId × Nat)) :
    List InputId → (Nat → SendOutcome) → FanState → FanState
  | [], _, fs => fs
  | (receiver_id, input_id) :: rest, outcomes, fs =>
    match alookup subs receiver_id with
    | none => fanOutLoop subs metadata data rest (fun n => outcomes (n + 1)) fs
    | some channel =>
      let drop_token : DropToken := fs.nextId
      let act := EngineAction.sendNodeEvent channel
        (.input input_id metadata
          (data.map fun p => ⟨p.1, p.2, drop_token⟩))
        (some 10)
      let fs := { fs with nextId := fs.nextId + 1, acts := fs.acts ++ [act] }
      let fs :=
        match outcomes 0, data with
        | .success, some (seg, _) => { fs with sent := aInsert drop_token seg fs.sent }
        | .success, none => fs
        | .closedErr, _ => { fs with closed := fs.closed ++ [receiver_id] }
        | .timeoutErr, _ => fs
      fanOutLoop subs metadata data rest (fun n => outcomes (n + 1)) fs

/-- The downstream set computed by the `Stopped` handler (source
lines 493-498): all `InputId`s mapped from the stopped node's
outputs, collected into a set. -/
def downstreamOf (mappings : List (OutputId × List InputId))
    (node_id : NodeId) : List InputId :=
  ((mappings.filter (fun p => p.1.1 = node_id)).flatMap (fun p => p.2)).dedup

/-- The notification loop of the `Stopped` handler (source lines
499-517): for each downstream `(receiver, input)` whose receiver has
a subscribe channel, push `InputClosed` (plain awaited send, no
timeout, result ignored), remove the input from the receiver's
`open_inputs` entry if one exists, and drop the receiver's channel
when that entry becomes empty. -/
def stoppedLoop : List InputId → RunningDataflow →
    RunningDataflow × List EngineAction
  | [], dataflow => (dataflow, [])
  | (receiver_id, input_id) :: rest, dataflow =>
    match alookup dataflow.subscribe_channels receiver_id with
    | none => stoppedLoop rest dataflow
    | some channel =>
      let act := EngineAction.sendNodeEvent channel (.inputClosed input_id) none
      let dataflow :=
        match alookup dataflow.open_inputs receiver_id with
        | none => dataflow
        | some open_in =>
          let open_in := open_in.erase input_id
          let dataflow := { dataflow with
            open_inputs := aInsert receiver_id open_in dataflow.open_inputs }
          if open_in = [] then
            { dataflow with
              subscribe_channels := aErase receiver_id dataflow.subscribe_channels }
          else dataflow
      let (dataflow, acts) := stoppedLoop rest dataflow
      (dataflow, act :: acts)

/-- `Daemon::handle_node_event` (source line 361). Returns the
actions performed (sends and replies, in order) and either the
updated state or the error that `?`-propagates out of the handler. -/
def handle_node_event (st : Daemon) (event : DaemonNodeEvent)
    (dataflow_id : DataflowId) (node_id : NodeId) :
    List EngineAction × Except String Daemon :=
  match event with
  | .subscribe event_sender =>
    match alookup st.running dataflow_id with
    | some dataflow =>
      let dataflow := { dataflow with
        subscribe_channels := aInsert node_id event_sender dataflow.subscribe_channels }
      ([.reply (.result (.ok ()))],
       .ok { st with running := aInsert dataflow_id dataflow st.running })
    | none =>
      ([.reply (.result (.error ("subscribe failed: no running dataflow with ID `" ++
          toString dataflow_id ++ "`")))],
       .ok st)
  | .prepareOutputMessage output_id metadata data_len alloc_ok reply_delivered =>
    if data_len > 0 ∧ alloc_ok = false then
      ([], .error "failed to allocate shared memory")
    else
      let memory : Option SegmentId := if data_len > 0 then some st.next_id else none
      let id : MessageId := st.next_id
      let message : PreparedMessage :=
        ⟨output_id, metadata, memory.map (fun m => (m, data_len))⟩
      let st := { st with
        next_id := st.next_id + 1,
        prepared_messages := aInsert id message st.prepared_messages }
      if reply_delivered then
        ([.reply (.preparedMessage id)], .ok st)
      else
        ([.reply (.preparedMessage id)],
         .ok { st with prepared_messages := aErase id st.prepared_messages })
  | .sendOutMessage id outcomes =>
    match alookup st.prepared_messages id with
    | none => ([], .error "invalid shared memory id")
    | some message =>
      let st := { st with prepared_messages := aErase id st.prepared_messages }
      match alookup st.running dataflow_id with
      | none =>
        ([], .error ("send out failed: no running dataflow with ID `" ++
          toString dataflow_id ++ "`"))
      | some dataflow =>
        let local_receivers :=
          (alookup dataflow.mappings (node_id, message.output_id)).getD []
        let fs := fanOutLoop dataflow.subscribe_channels message.metadata
          message.data local_receivers outcomes
          ⟨st.sent_out_shared_memory, st.next_id, [], []⟩
        let dataflow := { dataflow with
          subscribe_channels :=
            fs.closed.foldl (fun m i => aErase i m) dataflow.subscribe_channels }
        (fs.acts ++ [.reply (.result (.ok ()))],
         .ok { st with
           sent_out_shared_memory := fs.sent,
           next_id := fs.nextId,
           running := aInsert dataflow_id dataflow st.running })
  | .stopped =>
    let acts0 := [EngineAction.reply (.result (.ok ()))]
    match alookup st.running dataflow_id with
    | none =>
      (acts0, .error ("failed to get downstream nodes: no running dataflow with ID `" ++
        toString dataflow_id ++ "`"))
    | some dataflow =>
      let downstream_nodes := downstreamOf dataflow.mappings node_id
      let (dataflow, acts1) := stoppedLoop downstream_nodes dataflow
      let dataflow := { dataflow with
        running_nodes := dataflow.running_nodes.erase node_id }
      if dataflow.running_nodes = [] then
        let finishActs :=
          if st.coordinator_addr then [EngineAction.allNodesFinished dataflow_id] else []
        (acts0 ++ acts1 ++ finishActs,
         .ok { st with running := aErase dataflow_id st.running })
      else
        (acts0 ++ acts1,
         .ok { st with running := aInsert dataflow_id dataflow st.running })

/-- The fan-out loop of the `Timer` handler (source lines 565-587):
like the data fan-out but with a 1 ms timeout, no data and no drop
tokens; closed receivers are collected for pruning. -/
def timerLoop (subs : List (NodeId × Chan)) (metadata : Metadata) :
    List InputId → (Nat → SendOutcome) → List NodeId × List EngineAction
  | [], _ => ([], [])
  | (receiver_id, input_id) :: rest, outcomes =>
    match alookup subs receiver_id with
    | none => timerLoop subs metadata rest (fun n => outcomes (n + 1))
    | some channel =>
      let act := EngineAction.sendNodeEvent channel
        (.input input_id metadata none) (some 1)
      let (closed, acts) := timerLoop subs metadata rest (fun n => outcomes (n + 1))
      match outcomes 0 with
      | .closedErr => (receiver_id :: closed, act :: acts)
      | _ => (closed, act :: acts)

/-- `Daemon::handle_dora_event` (source line 549). -/
def handle_dora_event (st : Daemon) (event : DoraEvent) :
    List EngineAction × Except String (Daemon × RunStatus) :=
  match event with
  | .timer dataflow_id interval metadata outcomes =>
    match alookup st.running dataflow_id with
    | none => ([], .ok (st, .continueRun))
    | some dataflow =>
      match alookup dataflow.timers interval with
      | none => ([], .ok (st, .continueRun))
      | some subscribers =>
        let (closed, acts) :=
          timerLoop dataflow.subscribe_channels metadata subscribers outcomes
        let dataflow := { dataflow with
          subscribe_channels :=
            closed.foldl (fun m i => aErase i m) dataflow.subscribe_channels }
        (acts,
         .ok ({ st with running := aInsert dataflow_id dataflow st.running },
           .continueRun))
  | .spawnedNodeResult dataflow_id node_id result =>
    let afterResult : Except String Unit :=
      match result with
      | .ok () => .ok ()
      | .error err =>
        if st.exit_when_done.isSome then
          .error ("error in node `" ++ toString dataflow_id ++ "/" ++ node_id ++
            "`: " ++ err)
        else .ok ()
    match afterResult with
    | .error e => ([], .error e)
    | .ok () =>
      match st.exit_when_done with
      | some ewd =>
        let ewd := ewd.erase (dataflow_id, node_id)
        let st := { st with exit_when_done := some ewd }
        if ewd = [] then ([], .ok (st, .exitRun))
        else ([], .ok (st, .continueRun))
      | none => ([], .ok (st, .continueRun))

/-- The `Event::Drop` arm of `run_inner` (source lines 215-226):
remove the token from `sent_out_shared_memory`; the returned flag is
whether `Rc::try_unwrap` succeeded, i.e. whether the removed handle
was the segment's last reference (no other table entry names the same
segment — see the module comment). -/
def handle_drop (st : Daemon) (token : DropToken) : Daemon × Bool :=
  match alookup st.sent_out_shared_memory token with
  | some seg =>
    let st := { st with
      sent_out_shared_memory := aErase token st.sent_out_shared_memory }
    (st, st.sent_out_shared_memory.all (fun p => p.2 != seg))
  | none => (st, false)

/-- One watchdog round trip (source lines 227-243):
`coordinator::send_event` (connect + send) and `tcp_receive` failures
are wrapped as "lost connection to coordinator"; a `serde_json` parse
failure is wrapped as "received unexpected watchdog reply from
coordinator". -/
def watchdogResult : WatchdogOutcome → Except String Unit
  | .ok => .ok ()
  | .connectSendErr => .error "lost connection to coordinator"
  | .receiveErr => .error "lost connection to coordinator"
  | .parseErr => .error "received unexpected watchdog reply from coordinator"

/-- One iteration's worth of input to the event loop: the event
together with the environment oracles embedded in it. -/
inductive Event where
  | node (dataflow_id : DataflowId) (node_id : NodeId) (event : DaemonNodeEvent)
  | coordinator (event : DaemonCoordinatorEvent)
  | drop (token : DropToken)
  | dora (event : DoraEvent)
  | watchdogInterval (outcome : WatchdogOutcome)

/-- How one iteration of `run_inner`'s loop ends: continue with a new
state, break out of the loop cleanly, or return an error from
`run_inner` (a `?` propagation), which terminates the loop. -/
inductive StepResult where
  | continueLoop (st : Daemon) (acts : List EngineAction)
  | exitLoop (st : Daemon) (acts : List EngineAction)
  | failed (err : String) (acts : List EngineAction)

/-- One iteration of the event loop (`Daemon::run_inner`, source
lines 175-248), dispatching one event to its handler. -/
def step (st : Daemon) : Event → StepResult
  | .node dataflow_id node_id event =>
    match handle_node_event st event dataflow_id node_id with
    | (acts, .ok st') => .continueLoop st' acts
    | (acts, .error e) => .failed e acts
  | .coordinator event =>
    match handle_coordinator_event st event with
    | (st', acts, reply, .continueRun) =>
      .continueLoop st' (acts ++ [.coordReply reply])
    | (st', acts, reply, .exitRun) =>
      .exitLoop st' (acts ++ [.coordReply reply])
  | .drop token => .continueLoop (handle_drop st token).1 []
  | .dora event =>
    match handle_dora_event st event with
    | (acts, .ok (st', .continueRun)) => .continueLoop st' acts
    | (acts, .ok (st', .exitRun)) => .exitLoop st' acts
    | (acts, .error e) => .failed e acts
  | .watchdogInterval outcome =>
    if st.coordinator_addr then
      match watchdogResult outcome with
      | .ok () => .continueLoop st []
      | .error e => .failed e []
    else .continueLoop st []

/-- Run a sequence of events from a state; `none` as soon as the loop
breaks or fails. -/
def runSteps (st : Daemon) : List Event → Option Daemon
  | [] => some st
  | ev :: rest =>
    match step st ev with
    | .continueLoop st' _ => runSteps st' rest
    | _ => none

/-! ### Association-list lemmas -/

theorem akeys_cons {K V : Type} (k : K) (v : V) (m : List (K × V)) :
    akeys ((k, v) :: m) = k :: akeys m := rfl

theorem mem_akeys_of_mem {K V : Type} {m : List (K × V)} {t : K} {s : V}
    (h : (t, s) ∈ m) : t ∈ akeys m :=
  List.mem_map_of_mem Prod.fst h

theorem aErase_cons_self {K V : Type} [DecidableEq K] {k key : K} (v : V)
    (m : List (K × V)) (h : k = key) :
    aErase key ((k, v) :: m) = aErase key m := by
  simp [aErase, List.filter_cons, h]

theorem aErase_cons_ne {K V : Type} [DecidableEq K] {k key : K} (v : V)
    (m : List (K × V)) (h : ¬k = key) :
    aErase key ((k, v) :: m) = (k, v) :: aErase key m := by
  simp [aErase, List.filter_cons, h]

theorem alookup_aInsert {K V : Type} [DecidableEq K] (key : K) (val : V)
    (m : List (K × V)) (r : K) :
    alookup (aInsert key val m) r = if r = key then some val else alookup m r := by
  induction m with
  | nil =>
    by_cases h : r = key
    · simp [aInsert, alookup, h]
    · simp [aInsert, alookup, h, Ne.symm h]
  | cons p rest ih =>
    obtain ⟨k, v⟩ := p
    by_cases hk : k = key
    · subst hk
      by_cases hr : r = k
      · simp [aInsert, alookup, hr]
      · simp [aInsert, alookup, hr, Ne.symm hr]
    · by_cases hr : r = k
      · subst hr
        simp [aInsert, alookup, hk, Ne.symm hk]
      · simp [aInsert, alookup, hk, hr, Ne.symm hr, ih]

theorem alookup_aErase {K V : Type} [DecidableEq K] (key : K)
    (m : List (K × V)) (r : K) :
    alookup (aErase key m) r = if r = key then none else alookup m r := by
  induction m with
  | nil =>
    by_cases h : r = key <;> simp [aErase, alookup, h]
  | cons p rest ih =>
    obtain ⟨k, v⟩ := p
    by_cases hk : k = key
    · rw [aErase_cons_self v rest hk, ih]
      by_cases hr : r = key
      · simp [hr]
      · subst hk
        simp [alookup, hr, Ne.symm hr]
    · rw [aErase_cons_ne v rest hk]
      by_cases hr : r = k
      · subst hr
        simp [alookup, Ne.symm hk, hk]
      · simp [alookup, Ne.symm hr, ih]

theorem alookup_eq_none {K V : Type} [DecidableEq K]
    (m : List (K × V)) (k : K) :
    alookup m k = none ↔ k ∉ akeys m := by
  induction m with
  | nil => simp [alookup, akeys]
  | cons p rest ih =>
    obtain ⟨k', v⟩ := p
    rw [akeys_cons]
    by_cases h : k' = k
    · subst h; simp [alookup]
    · simp only [alookup, h, if_false, List.mem_cons, ih]
      constructor
      · rintro hn (e | e)
        · exact h e.symm
        · exact hn e
      · intro hn
        exact fun e => hn (Or.inr e)

theorem alookup_mem {K V : Type} [DecidableEq K]
    {m : List (K × V)} {k : K} {v : V} (h : alookup m k = some v) :
    (k, v) ∈ m := by
  induction m with
  | nil => simp [alookup] at h
  | cons p rest ih =>
    obtain ⟨k', v'⟩ := p
    by_cases hk : k' = k
    · subst hk
      simp [alookup] at h
      simp [h]
    · simp [alookup, hk] at h
      exact List.mem_cons_of_mem _ (ih h)

theorem mem_aInsert_self {K V : Type} [DecidableEq K] (key : K) (val : V)
    (m : List (K × V)) : (key, val) ∈ aInsert key val m := by
  induction m with
  | nil => simp [aInsert]
  | cons p rest ih =>
    obtain ⟨k, v⟩ := p
    by_cases h : k = key <;> simp [aInsert, h, ih]

theorem mem_aInsert_of_ne {K V : Type} [DecidableEq K] {key t : K} {val s : V}
    {m : List (K × V)} (h : (t, s) ∈ m) (hne : t ≠ key) :
    (t, s) ∈ aInsert key val m := by
  induction m with
  | nil => simp at h
  | cons p rest ih =>
    obtain ⟨k, v⟩ := p
    by_cases hk : k = key
    · subst hk
      rcases List.mem_cons.mp h with h | h
      · exact absurd (congrArg Prod.fst h) hne
      · simp [aInsert, List.mem_cons, h]
    · rcases List.mem_cons.mp h with h | h
      · simp [aInsert, hk, List.mem_cons, h]
      · simp [aInsert, hk, List.mem_cons, ih h]

theorem akeys_aInsert_sub {K V : Type} [DecidableEq K] {key t : K} (val : V)
    {m : List (K × V)} (h : t ∈ akeys m) : t ∈ akeys (aInsert key val m) := by
  induction m with
  | nil => simp [akeys] at h
  | cons p rest ih =>
    obtain ⟨k, v⟩ := p
    rw [akeys_cons] at h
    by_cases hk : k = key
    · subst hk
      rcases List.mem_cons.mp h with h | h
      · simp [aInsert, akeys_cons, h]
      · simp [aInsert, akeys_cons, List.mem_cons, h]
    · rcases List.mem_cons.mp h with h | h
      · simp [aInsert, hk, akeys_cons, h]
      · simp [aInsert, hk, akeys_cons, List.mem_cons, ih h]

theorem not_mem_akeys_aInsert {K V : Type} [DecidableEq K] {key t : K} (val : V)
    {m : List (K × V)} (h : t ∉ akeys m) (hne : t ≠ key) :
    t ∉ akeys (aInsert key val m) := by
  induction m with
  | nil => simp [aInsert, akeys, hne]
  | cons p rest ih =>
    obtain ⟨k, v⟩ := p
    rw [akeys_cons] at h
    simp only [List.mem_cons, not_or] at h
    by_cases hk : k = key
    · subst hk
      simp [aInsert, akeys_cons, List.mem_cons, hne, h.2]
    · simp only [aInsert, hk, if_false, akeys_cons, List.mem_cons, not_or]
      exact ⟨h.1, ih h.2⟩

theorem aInsert_of_not_mem {K V : Type} [DecidableEq K] {key : K} (val : V)
    {m : List (K × V)} (h : key ∉ akeys m) :
    aInsert key val m = m ++ [(key, val)] := by
  induction m with
  | nil => simp [aInsert]
  | cons p rest ih =>
    obtain ⟨k, v⟩ := p
    rw [akeys_cons] at h
    simp only [List.mem_cons, not_or] at h
    have hk : ¬k = key := fun e => h.1 e.symm
    simp [aInsert, hk, ih h.2]

theorem aErase_of_not_mem {K V : Type} [DecidableEq K] {key : K}
    {m : List (K × V)} (h : key ∉ akeys m) : aErase key m = m := by
  induction m with
  | nil => simp [aErase]
  | cons p rest ih =>
    obtain ⟨k, v⟩ := p
    rw [akeys_cons] at h
    simp only [List.mem_cons, not_or] at h
    have hk : ¬k = key := fun e => h.1 e.symm
    rw [aErase_cons_ne v rest hk, ih h.2]

theorem aErase_aInsert {K V : Type} [DecidableEq K] (key : K) (val : V)
    (m : List (K × V)) : aErase key (aInsert key val m) = aErase key m := by
  induction m with
  | nil => simp [aInsert, aErase, List.filter_cons]
  | cons p rest ih =>
    obtain ⟨k, v⟩ := p
    by_cases hk : k = key
    · subst hk
      simp [aInsert, aErase, List.filter_cons]
    · simp only [aInsert, hk, if_false]
      rw [aErase_cons_ne v _ hk, aErase_cons_ne v rest hk, ih]

theorem aErase_append {K V : Type} [DecidableEq K] (key : K)
    (xs ys : List (K × V)) :
    aErase key (xs ++ ys) = aErase key xs ++ aErase key ys := by
  simp [aErase, List.filter_append]

theorem alookup_append_left {K V : Type} [DecidableEq K]
    {xs : List (K × V)} (ys : List (K × V)) {k : K} {v : V}
    (h : alookup xs k = some v) : alookup (xs ++ ys) k = some v := by
  induction xs with
  | nil => simp [alookup] at h
  | cons p rest ih =>
    obtain ⟨k', v'⟩ := p
    by_cases hk : k' = k
    · subst hk; simp [alookup] at h ⊢; exact h
    · simp [alookup, hk] at h ⊢; exact ih h

theorem alookup_append_right {K V : Type} [DecidableEq K]
    {xs : List (K × V)} (ys : List (K × V)) {k : K}
    (h : k ∉ akeys xs) : alookup (xs ++ ys) k = alookup ys k := by
  induction xs with
  | nil => simp
  | cons p rest ih =>
    obtain ⟨k', v'⟩ := p
    rw [akeys_cons] at h
    simp only [List.mem_cons, not_or] at h
    have hk : ¬k' = k := fun e => h.1 e.symm
    simp [alookup, hk, ih h.2]

theorem alookup_foldl_aErase {K V : Type} [DecidableEq K]
    (closed : List K) (m : List (K × V)) (r : K) :
    alookup (closed.foldl (fun acc i => aErase i acc) m) r =
      if r ∈ closed then none else alookup m r := by
  induction closed generalizing m with
  | nil => simp
  | cons c rest ih =>
    by_cases hr : r = c
    · subst hr
      simp [List.foldl, ih, alookup_aErase]
    · by_cases hmem : r ∈ rest <;>
        simp [List.foldl, ih, alookup_aErase, hr, hmem]

/-! ### Handler-level lemmas -/

theorem stoppedLoop_fields (pairs : List InputId) (d : RunningDataflow) :
    (stoppedLoop pairs d).1.running_nodes = d.running_nodes ∧
    (stoppedLoop pairs d).1.mappings = d.mappings ∧
    (stoppedLoop pairs d).1.timers = d.timers := by
  induction pairs generalizing d with
  | nil => simp [stoppedLoop]
  | cons p rest ih =>
    obtain ⟨receiver_id, input_id⟩ := p
    cases hch : alookup d.subscribe_channels receiver_id with
    | none => simpa [stoppedLoop, hch] using ih d
    | some channel =>
      cases hop : alookup d.open_inputs receiver_id with
      | none => simpa [stoppedLoop, hch, hop] using ih d
      | some open_in =>
        by_cases hemp : open_in.erase input_id = [] <;>
          simpa [stoppedLoop, hch, hop, hemp] using ih _

/-! ### Example states used by the witnesses: a dataflow `7` whose
producer `p` (output `x`) feeds input `in` of the subscribed nodes
`a` (channel 1) and `b` (channel 2). -/

def exDataflow : RunningDataflow :=
  { subscribe_channels := [("a", 1), ("b", 2)]
    mappings := [(("p", "x"), [("a", "in"), ("b", "in")])]
    timers := []
    open_inputs := [("a", ["in"]), ("b", ["in"])]
    running_nodes := ["p", "a", "b"] }

def exDaemon : Daemon :=
  { prepared_messages := []
    sent_out_shared_memory := []
    running := [(7, exDataflow)]
    next_id := 100 }

/-- The state after `p`'s `Stopped` event is handled in `exDaemon`:
both subscribers got `InputClosed`, their open-input sets emptied and
their channels were dropped; `p` left `running_nodes`. -/
def exStoppedDaemon : Daemon :=
  { prepared_messages := []
    sent_out_shared_memory := []
    running := [(7,
      { subscribe_channels := []
        mappings := [(("p", "x"), [("a", "in"), ("b", "in")])]
        timers := []
        open_inputs := [("a", []), ("b", [])]
        running_nodes := ["a", "b"] })]
    next_id := 100 }

/-! ### Claim C1 -/

/-- Claim C1, as stated, is false: a `SendOutMessage` whose `id` is
absent from `prepared_messages` does not produce an error reply and
does not let the loop continue. At the concrete state with a running
dataflow `7` and empty `prepared_messages`, the step ends in
`StepResult.failed` (the `?` in `run_inner`'s `Node` arm propagates
the handler error and terminates the loop) with an empty action list
(no reply is sent on the reply channel). -/
theorem claim_C1_cex :
    step { running := [(7, {})], next_id := 0 }
        (.node 7 "p" (.sendOutMessage 5 (fun _ => .success))) =
      .failed "invalid shared memory id" [] := by
  rfl

/-- Claim C1 (amended): for every `SendOutMessage` whose id is absent
from `prepared_messages`, or whose dataflow is absent from `running`,
the handler returns an error which `?`-propagates out of
`handle_node_event`; the event loop terminates with that error and no
reply is sent on the event's reply channel. -/
theorem claim_C1_sendout_terminates (st : Daemon) (df : DataflowId)
    (n : NodeId) (id : MessageId) (oc : Nat → SendOutcome) :
    (alookup st.prepared_messages id = none →
      step st (.node df n (.sendOutMessage id oc)) =
        .failed "invalid shared memory id" []) ∧
    (∀ msg, alookup st.prepared_messages id = some msg →
      alookup st.running df = none →
      step st (.node df n (.sendOutMessage id oc)) =
        .failed ("send out failed: no running dataflow with ID `" ++
          toString df ++ "`") []) := by
  constructor
  · intro h
    simp [step, handle_node_event, h]
  · intro msg h1 h2
    simp [step, handle_node_event, h1, h2]

/-- Witness for `claim_C1_sendout_terminates` at concrete inputs. -/
theorem claim_C1_witness :
    step ({} : Daemon) (.node 7 "p" (.sendOutMessage 5 (fun _ => .success))) =
      .failed "invalid shared memory id" [] ∧
    step ({ prepared_messages := [(5, ⟨"x", 0, none⟩)] } : Daemon)
        (.node 7 "p" (.sendOutMessage 5 (fun _ => .success))) =
      .failed ("send out failed: no running dataflow with ID `" ++
        toString (7 : Nat) ++ "`") [] :=
  ⟨(claim_C1_sendout_terminates {} 7 "p" 5 (fun _ => .success)).1 rfl,
   (claim_C1_sendout_terminates { prepared_messages := [(5, ⟨"x", 0, none⟩)] }
      7 "p" 5 (fun _ => .success)).2 ⟨"x", 0, none⟩ rfl rfl⟩

/-! ### Claim C7 -/

/-- Claim C7: `StopDataflow` for an absent dataflow replies with an
error string and leaves the whole engine state unchanged; for a
present dataflow it sends a `Stop` event to every subscriber channel,
clears the `subscribe_channels` map, and replies with the
`SpawnResult` variant carrying `Ok`. -/
theorem claim_C7_stop_dataflow (st : Daemon) (dataflow_id : DataflowId) :
    (alookup st.running dataflow_id = none →
      ∃ msg, handle_coordinator_event st (.stopDataflow dataflow_id) =
        (st, [], .spawnResult (.error msg), .continueRun)) ∧
    (∀ dataflow, alookup st.running dataflow_id = some dataflow →
      ∃ st' acts,
        handle_coordinator_event st (.stopDataflow dataflow_id) =
          (st', acts, .spawnResult (.ok ()), .continueRun) ∧
        (∀ p ∈ dataflow.subscribe_channels,
          EngineAction.sendNodeEvent p.2 .stop none ∈ acts) ∧
        (∀ df', alookup st'.running dataflow_id = some df' →
          df'.subscribe_channels = [])) := by
  constructor
  · intro h
    refine ⟨"no running dataflow with ID `" ++ toString dataflow_id ++ "`", ?_⟩
    simp [handle_coordinator_event, h]
  · intro dataflow h
    refine ⟨{ st with running := aInsert dataflow_id { dataflow with subscribe_channels := [] } st.running },
      dataflow.subscribe_channels.map
        (fun p => EngineAction.sendNodeEvent p.2 .stop none), ?_, ?_, ?_⟩
    · simp [handle_coordinator_event, h]
    · intro p hp
      exact List.mem_map.mpr ⟨p, hp, rfl⟩
    · intro df' h'
      rw [alookup_aInsert] at h'
      simp at h'
      rw [← h']

/-- Witness for `claim_C7_stop_dataflow`: dataflow `9` is absent from
`exDaemon`, dataflow `7` is present. -/
theorem claim_C7_witness :
    (∃ msg, handle_coordinator_event exDaemon (.stopDataflow 9) =
      (exDaemon, [], .spawnResult (.error msg), .continueRun)) ∧
    (∃ st' acts,
      handle_coordinator_event exDaemon (.stopDataflow 7) =
        (st', acts, .spawnResult (.ok ()), .continueRun) ∧
      (∀ p ∈ exDataflow.subscribe_channels,
        EngineAction.sendNodeEvent p.2 .stop none ∈ acts) ∧
      (∀ df', alookup st'.running 7 = some df' →
        df'.subscribe_channels = [])) :=
  ⟨(claim_C7_stop_dataflow exDaemon 9).1 rfl,
   (claim_C7_stop_dataflow exDaemon 7).2 exDataflow rfl⟩

/-! ### Claim C8 -/

/-- Claim C8, as stated, is false for the parse leg of the round
trip: a watchdog reply that fails to parse terminates the loop with
the error wrapped as "received unexpected watchdog reply from
coordinator", not as "lost connection to coordinator". -/
theorem claim_C8_cex :
    step ({ coordinator_addr := true } : Daemon) (.watchdogInterval .parseErr) =
      .failed "received unexpected watchdog reply from coordinator" [] ∧
    "received unexpected watchdog reply from coordinator" ≠
      "lost connection to coordinator" := by
  exact ⟨rfl, by decide⟩

/-- Claim C8 (amended): every failure of a watchdog round trip
(connect, send, receive, or parse of the reply) terminates the event
loop with an error; connect/send and receive failures are wrapped as
"lost connection to coordinator", while a parse failure is wrapped as
"received unexpected watchdog reply from coordinator". -/
theorem claim_C8_watchdog_failures (st : Daemon) (outcome : WatchdogOutcome)
    (haddr : st.coordinator_addr = true) (hfail : outcome ≠ .ok) :
    ∃ e, step st (.watchdogInterval outcome) = .failed e [] ∧
      ((outcome = .connectSendErr ∨ outcome = .receiveErr) →
        e = "lost connection to coordinator") ∧
      (outcome = .parseErr →
        e = "received unexpected watchdog reply from coordinator") := by
  cases outcome with
  | ok => exact absurd rfl hfail
  | connectSendErr =>
    exact ⟨"lost connection to coordinator",
      by simp [step, watchdogResult, haddr], fun _ => rfl, by simp⟩
  | receiveErr =>
    exact ⟨"lost connection to coordinator",
      by simp [step, watchdogResult, haddr], fun _ => rfl, by simp⟩
  | parseErr =>
    exact ⟨"received unexpected watchdog reply from coordinator",
      by simp [step, watchdogResult, haddr], by simp, fun _ => rfl⟩

/-- Witness for `claim_C8_watchdog_failures` at a receive failure. -/
theorem claim_C8_witness :
    step ({ coordinator_addr := true } : Daemon) (.watchdogInterval .receiveErr) =
      .failed "lost connection to coordinator" [] := by
  obtain ⟨e, h1, h2, _⟩ := claim_C8_watchdog_failures
    { coordinator_addr := true } .receiveErr rfl (by decide)
  rw [h2 (Or.inr rfl)] at h1
  exact h1

/-! ### Claim C10 -/

/-- Claim C10: a second `Subscribe` from a node that already has an
entry in `subscribe_channels` replaces the stored sender without
error: both replies are `Ok` and after the second event the node's
channel is the new sender. -/
theorem claim_C10_resubscribe (st : Daemon) (df : DataflowId) (n : NodeId)
    (s1 s2 : Chan) (dataflow : RunningDataflow)
    (h : alookup st.running df = some dataflow) :
    ∃ st1 st2,
      handle_node_event st (.subscribe s1) df n =
        ([.reply (.result (.ok ()))], .ok st1) ∧
      handle_node_event st1 (.subscribe s2) df n =
        ([.reply (.result (.ok ()))], .ok st2) ∧
      ∀ df2, alookup st2.running df = some df2 →
        alookup df2.subscribe_channels n = some s2 := by
  refine ⟨{ st with running := aInsert df { dataflow with subscribe_channels := aInsert n s1 dataflow.subscribe_channels } st.running },
    { st with running := aInsert df { dataflow with subscribe_channels := aInsert n s2 (aInsert n s1 dataflow.subscribe_channels) } (aInsert df { dataflow with subscribe_channels := aInsert n s1 dataflow.subscribe_channels } st.running) },
    ?_, ?_, ?_⟩
  · simp [handle_node_event, h]
  · simp [handle_node_event, alookup_aInsert]
  · intro df2 h2
    rw [alookup_aInsert] at h2
    simp at h2
    rw [← h2]
    simp [alookup_aInsert]

/-- Witness for `claim_C10_resubscribe`: node `a` of `exDaemon`
re-subscribes with channel 12 after channel 11. -/
theorem claim_C10_witness :
    ∃ st1 st2,
      handle_node_event exDaemon (.subscribe 11) 7 "a" =
        ([.reply (.result (.ok ()))], .ok st1) ∧
      handle_node_event st1 (.subscribe 12) 7 "a" =
        ([.reply (.result (.ok ()))], .ok st2) ∧
      ∀ df2, alookup st2.running 7 = some df2 →
        alookup df2.subscribe_channels "a" = some 12 :=
  claim_C10_resubscribe exDaemon 7 "a" 11 12 exDataflow rfl

/-! ### Claim C3 -/

/-- Claim C3, as stated, is false: observing a node's process
termination does not remove it from `running_nodes`. Concretely,
spawn dataflow `7` with a single node `n` (no inputs), then handle
`SpawnedNodeResult` for `n`: the engine has observed `n`'s process
termination, yet `n` is still a member of `running_nodes` (the
`SpawnedNodeResult` arm only warns and updates `exit_when_done`). -/
theorem claim_C3_cex :
    (runSteps {} [.coordinator (.spawn 7 [("n", ⟨[]⟩)] (fun _ => true)),
        .dora (.spawnedNodeResult 7 "n" (.ok ()))]).map
      (fun st => (alookup st.running 7).map RunningDataflow.running_nodes) =
      some (some ["n"]) := by
  rfl

/-- Claim C3 (amended): membership in `running_nodes` tracks only
`Stopped` events: the `SpawnedNodeResult` handler leaves `running`
(and hence every `running_nodes` set) unchanged, while the `Stopped`
handler removes the stopped node from its dataflow's `running_nodes`
(or removes the whole dataflow when it was the last node). -/
theorem claim_C3_running_nodes (st : Daemon) :
    (∀ df n res st' status acts,
      handle_dora_event st (.spawnedNodeResult df n res) =
        (acts, .ok (st', status)) →
      st'.running = st.running) ∧
    (∀ df n dataflow acts st',
      alookup st.running df = some dataflow →
      dataflow.running_nodes.Nodup →
      handle_node_event st .stopped df n = (acts, .ok st') →
      (alookup st'.running df = none ∨
        ∃ df2, alookup st'.running df = some df2 ∧ n ∉ df2.running_nodes)) := by
  constructor
  · intro df n res st' status acts hrun
    cases res with
    | ok u =>
      cases hewd : st.exit_when_done with
      | none =>
        simp [handle_dora_event, hewd] at hrun
        rw [← hrun.2.1]
      | some ewd =>
        by_cases h : ewd.erase (df, n) = [] <;>
          · simp [handle_dora_event, hewd, h] at hrun
            rw [← hrun.2.1]
    | error e =>
      cases hewd : st.exit_when_done with
      | none =>
        simp [handle_dora_event, hewd] at hrun
        rw [← hrun.2.1]
      | some ewd =>
        simp [handle_dora_event, hewd] at hrun
  · intro df n dataflow acts st' h hnodup hrun
    simp only [handle_node_event, h] at hrun
    by_cases hemp :
        ((stoppedLoop (downstreamOf dataflow.mappings n) dataflow).1.running_nodes).erase n = []
    · left
      simp only [hemp, if_pos rfl] at hrun
      simp at hrun
      rw [← hrun.2]
      simp [alookup_aErase]
    · right
      simp only [hemp, if_neg hemp] at hrun
      simp at hrun
      refine ⟨{ (stoppedLoop (downstreamOf dataflow.mappings n) dataflow).1 with running_nodes := (stoppedLoop (downstreamOf dataflow.mappings n) dataflow).1.running_nodes.erase n }, ?_, ?_⟩
      · rw [← hrun.2]
        simp [alookup_aInsert]
      · show n ∉ (stoppedLoop (downstreamOf dataflow.mappings n) dataflow).1.running_nodes.erase n
        rw [(stoppedLoop_fields (downstreamOf dataflow.mappings n) dataflow).1]
        exact hnodup.not_mem_erase

/-- Witness for `claim_C3_running_nodes`: handling `p`'s
`SpawnedNodeResult` in `exDaemon` leaves `running` unchanged, and
handling `p`'s `Stopped` leads to `exStoppedDaemon` where `p` is no
longer in `running_nodes`. -/
theorem claim_C3_witness :
    exDaemon.running = exDaemon.running ∧
    (alookup exStoppedDaemon.running 7 = none ∨
      ∃ df2, alookup exStoppedDaemon.running 7 = some df2 ∧
        "p" ∉ df2.running_nodes) :=
  ⟨(claim_C3_running_nodes exDaemon).1 7 "p" (.ok ()) exDaemon .continueRun [] rfl,
   (claim_C3_running_nodes exDaemon).2 7 "p" exDataflow
     [.reply (.result (.ok ())),
      .sendNodeEvent 1 (.inputClosed "in") none,
      .sendNodeEvent 2 (.inputClosed "in") none]
     exStoppedDaemon rfl (by decide) rfl⟩

/-! ### Claim C4 -/

/-- Claim C4, as stated, is false: the `Subscribe` handler installs a
channel without checking `open_inputs`, so a node with no inputs can
hold a subscribe channel while having no `open_inputs` entry.
Concretely: spawn dataflow `7` with sink `a` (input `in` fed by `p`'s
output `x`) and source `p` (no inputs), then let `p` subscribe. At
the end of that handler `subscribe_channels` contains `p` but
`open_inputs` has no entry for `p`. -/
theorem claim_C4_cex :
    (runSteps {} [.coordinator (.spawn 7
        [("a", ⟨[("in", .user "p" "x" none)]⟩), ("p", ⟨[]⟩)] (fun _ => true)),
      .node 7 "p" (.subscribe 1)]).map
      (fun st => (alookup st.running 7).map
        (fun (d : RunningDataflow) =>
          (alookup d.subscribe_channels "p", alookup d.open_inputs "p"))) =
      some (some (some 1, none)) := by
  rfl

/-! ### Claim C6 -/

/-- A dataflow where `p` feeds `a`'s open input `in` but `a` has no
subscribe channel. -/
def exNoChanBefore : Daemon :=
  { running := [(7,
      { subscribe_channels := []
        mappings := [(("p", "x"), [("a", "in")])]
        open_inputs := [("a", ["in"])]
        running_nodes := ["p", "a"] })]
    next_id := 0 }

/-- `exNoChanBefore` after `p`'s `Stopped`: `open_inputs` untouched,
only `p` removed from `running_nodes`. -/
def exNoChanAfter : Daemon :=
  { running := [(7,
      { subscribe_channels := []
        mappings := [(("p", "x"), [("a", "in")])]
        open_inputs := [("a", ["in"])]
        running_nodes := ["a"] })]
    next_id := 0 }

/-- Claim C6, as stated, is false: when the stopped node's downstream
receiver has no subscribe channel, the `Stopped` handler skips the
whole delivery, so no `InputClosed` is pushed and — contrary to the
claim — the receiver's `open_inputs` set is NOT decremented.
Concretely: dataflow `7` maps `p`'s output `x` to `a`'s input `in`,
`a` has `in` open but no channel; handling `p`'s `Stopped` leaves
`open_inputs["a"] = ["in"]` untouched and emits only the `Ok` reply. -/
theorem claim_C6_cex :
    handle_node_event exNoChanBefore .stopped 7 "p" =
      ([.reply (.result (.ok ()))], .ok exNoChanAfter) := by
  rfl

/-! ### Fan-out loop lemmas (for claims C2, C5, C9) -/

theorem mem_akeys_aInsert {K V : Type} [DecidableEq K] {key t : K} {val : V}
    {m : List (K × V)} (h : t ∈ akeys (aInsert key val m)) :
    t = key ∨ t ∈ akeys m := by
  induction m with
  | nil => simpa [aInsert, akeys] using h
  | cons p rest ih =>
    obtain ⟨k, v⟩ := p
    by_cases hk : k = key
    · subst hk
      rw [show aInsert k val ((k, v) :: rest) = (k, val) :: rest by simp [aInsert],
        akeys_cons] at h
      rcases List.mem_cons.mp h with h | h
      · exact Or.inl h
      · exact Or.inr (by rw [akeys_cons]; exact List.mem_cons_of_mem _ h)
    · rw [show aInsert key val ((k, v) :: rest) = (k, v) :: aInsert key val rest by
        simp [aInsert, hk], akeys_cons] at h
      rcases List.mem_cons.mp h with h | h
      · exact Or.inr (by rw [akeys_cons]; exact List.mem_cons.mpr (Or.inl h))
      · rcases ih h with h | h
        · exact Or.inl h
        · exact Or.inr (by rw [akeys_cons]; exact List.mem_cons_of_mem _ h)

/-- The key freshness invariant of the fan-out loop: every token
already recorded is below the fresh-id counter. -/
def FanInv (sent : List (DropToken × SegmentId)) (nextId : Nat) : Prop :=
  ∀ t ∈ akeys sent, t < nextId

theorem fanInv_succ {sent : List (DropToken × SegmentId)} {n : Nat}
    (h : FanInv sent n) : FanInv sent (n + 1) :=
  fun t ht => Nat.lt_succ_of_lt (h t ht)

theorem fanInv_insert {sent : List (DropToken × SegmentId)} {n : Nat}
    (seg : SegmentId) (h : FanInv sent n) : FanInv (aInsert n seg sent) (n + 1) := by
  intro t ht
  rcases mem_akeys_aInsert ht with rfl | ht
  · exact Nat.lt_succ_self _
  · exact Nat.lt_succ_of_lt (h t ht)

theorem fanInv_not_mem {sent : List (DropToken × SegmentId)} {n : Nat}
    (h : FanInv sent n) : n ∉ akeys sent :=
  fun hmem => absurd (h n hmem) (Nat.lt_irrefl n)

theorem fanOutLoop_cons_none (subs : List (NodeId × Chan)) (meta : Metadata)
    (data : Option (SegmentId × Nat)) (receiver_id : NodeId) (input_id : DataId)
    (rest : List InputId) (oc : Nat → SendOutcome) (fs : FanState)
    (hch : alookup subs receiver_id = none) :
    fanOutLoop subs meta data ((receiver_id, input_id) :: rest) oc fs =
      fanOutLoop subs meta data rest (fun n => oc (n + 1)) fs := by
  simp [fanOutLoop, hch]

theorem fanOutLoop_cons_success_some (subs : List (NodeId × Chan)) (meta : Metadata)
    (seg : SegmentId) (len : Nat) (receiver_id : NodeId) (input_id : DataId)
    (rest : List InputId) (oc : Nat → SendOutcome) (fs : FanState) (channel : Chan)
    (hch : alookup subs receiver_id = some channel) (ho : oc 0 = .success) :
    fanOutLoop subs meta (some (seg, len)) ((receiver_id, input_id) :: rest) oc fs =
      fanOutLoop subs meta (some (seg, len)) rest (fun n => oc (n + 1))
        ⟨aInsert fs.nextId seg fs.sent, fs.nextId + 1, fs.closed,
          fs.acts ++ [.sendNodeEvent channel
            (.input input_id meta (some ⟨seg, len, fs.nextId⟩)) (some 10)]⟩ := by
  simp [fanOutLoop, hch, ho]

theorem fanOutLoop_cons_success_none (subs : List (NodeId × Chan)) (meta : Metadata)
    (receiver_id : NodeId) (input_id : DataId)
    (rest : List InputId) (oc : Nat → SendOutcome) (fs : FanState) (channel : Chan)
    (hch : alookup subs receiver_id = some channel) (ho : oc 0 = .success) :
    fanOutLoop subs meta none ((receiver_id, input_id) :: rest) oc fs =
      fanOutLoop subs meta none rest (fun n => oc (n + 1))
        ⟨fs.sent, fs.nextId + 1, fs.closed,
          fs.acts ++ [.sendNodeEvent channel
            (.input input_id meta none) (some 10)]⟩ := by
  simp [fanOutLoop, hch, ho]

theorem fanOutLoop_cons_closed (subs : List (NodeId × Chan)) (meta : Metadata)
    (data : Option (SegmentId × Nat)) (receiver_id : NodeId) (input_id : DataId)
    (rest : List InputId) (oc : Nat → SendOutcome) (fs : FanState) (channel : Chan)
    (hch : alookup subs receiver_id = some channel) (ho : oc 0 = .closedErr) :
    fanOutLoop subs meta data ((receiver_id, input_id) :: rest) oc fs =
      fanOutLoop subs meta data rest (fun n => oc (n + 1))
        ⟨fs.sent, fs.nextId + 1, fs.closed ++ [receiver_id],
          fs.acts ++ [.sendNodeEvent channel
            (.input input_id meta (data.map fun p => ⟨p.1, p.2, fs.nextId⟩))
            (some 10)]⟩ := by
  rcases data with _ | ⟨seg, len⟩ <;> simp [fanOutLoop, hch, ho]

theorem fanOutLoop_cons_timeout (subs : List (NodeId × Chan)) (meta : Metadata)
    (data : Option (SegmentId × Nat)) (receiver_id : NodeId) (input_id : DataId)
    (rest : List InputId) (oc : Nat → SendOutcome) (fs : FanState) (channel : Chan)
    (hch : alookup subs receiver_id = some channel) (ho : oc 0 = .timeoutErr) :
    fanOutLoop subs meta data ((receiver_id, input_id) :: rest) oc fs =
      fanOutLoop subs meta data rest (fun n => oc (n + 1))
        ⟨fs.sent, fs.nextId + 1, fs.closed,
          fs.acts ++ [.sendNodeEvent channel
            (.input input_id meta (data.map fun p => ⟨p.1, p.2, fs.nextId⟩))
            (some 10)]⟩ := by
  rcases data with _ | ⟨seg, len⟩ <;> simp [fanOutLoop, hch, ho]

theorem fanOutLoop_nextId_le (subs : List (NodeId × Chan)) (meta : Metadata)
    (data : Option (SegmentId × Nat)) (receivers : List InputId) :
    ∀ (oc : Nat → SendOutcome) (fs : FanState),
    fs.nextId ≤ (fanOutLoop subs meta data receivers oc fs).nextId := by
  induction receivers with
  | nil => intro oc fs; simp [fanOutLoop]
  | cons p rest ih =>
    intro oc fs
    obtain ⟨rid, iid⟩ := p
    cases hch : alookup subs rid with
    | none =>
      rw [fanOutLoop_cons_none subs meta data rid iid rest oc fs hch]
      exact ih _ fs
    | some channel =>
      cases ho : oc 0 with
      | success =>
        rcases data with _ | ⟨seg, len⟩
        · rw [fanOutLoop_cons_success_none subs meta rid iid rest oc fs channel hch ho]
          exact le_trans (Nat.le_succ _) (ih (fun n => oc (n + 1)) ⟨fs.sent, fs.nextId + 1, fs.closed, fs.acts ++ [.sendNodeEvent channel (.input iid meta none) (some 10)]⟩)
        · rw [fanOutLoop_cons_success_some subs meta seg len rid iid rest oc fs channel hch ho]
          exact le_trans (Nat.le_succ _) (ih (fun n => oc (n + 1)) ⟨aInsert fs.nextId seg fs.sent, fs.nextId + 1, fs.closed, fs.acts ++ [.sendNodeEvent channel (.input iid meta (some ⟨seg, len, fs.nextId⟩)) (some 10)]⟩)
      | closedErr =>
        rw [fanOutLoop_cons_closed subs meta data rid iid rest oc fs channel hch ho]
        exact le_trans (Nat.le_succ _) (ih (fun n => oc (n + 1)) ⟨fs.sent, fs.nextId + 1, fs.closed ++ [rid], fs.acts ++ [.sendNodeEvent channel (.input iid meta (data.map fun p => ⟨p.1, p.2, fs.nextId⟩)) (some 10)]⟩)
      | timeoutErr =>
        rw [fanOutLoop_cons_timeout subs meta data rid iid rest oc fs channel hch ho]
        exact le_trans (Nat.le_succ _) (ih (fun n => oc (n + 1)) ⟨fs.sent, fs.nextId + 1, fs.closed, fs.acts ++ [.sendNodeEvent channel (.input iid meta (data.map fun p => ⟨p.1, p.2, fs.nextId⟩)) (some 10)]⟩)

theorem fanOutLoop_inv (subs : List (NodeId × Chan)) (meta : Metadata)
    (data : Option (SegmentId × Nat)) (receivers : List InputId) :
    ∀ (oc : Nat → SendOutcome) (fs : FanState),
    FanInv fs.sent fs.nextId →
    FanInv (fanOutLoop subs meta data receivers oc fs).sent
      (fanOutLoop subs meta data receivers oc fs).nextId := by
  induction receivers with
  | nil => intro oc fs h; simpa [fanOutLoop] using h
  | cons p rest ih =>
    intro oc fs h
    obtain ⟨rid, iid⟩ := p
    cases hch : alookup subs rid with
    | none =>
      rw [fanOutLoop_cons_none subs meta data rid iid rest oc fs hch]
      exact ih _ fs h
    | some channel =>
      cases ho : oc 0 with
      | success =>
        rcases data with _ | ⟨seg, len⟩
        · rw [fanOutLoop_cons_success_none subs meta rid iid rest oc fs channel hch ho]
          exact ih _ _ (fanInv_succ h)
        · rw [fanOutLoop_cons_success_some subs meta seg len rid iid rest oc fs channel hch ho]
          exact ih _ _ (fanInv_insert seg h)
      | closedErr =>
        rw [fanOutLoop_cons_closed subs meta data rid iid rest oc fs channel hch ho]
        exact ih _ _ (fanInv_succ h)
      | timeoutErr =>
        rw [fanOutLoop_cons_timeout subs meta data rid iid rest oc fs channel hch ho]
        exact ih _ _ (fanInv_succ h)

theorem fanOutLoop_acts_extend (subs : List (NodeId × Chan)) (meta : Metadata)
    (data : Option (SegmentId × Nat)) (receivers : List InputId) :
    ∀ (oc : Nat → SendOutcome) (fs : FanState),
    ∃ extra, (fanOutLoop subs meta data receivers oc fs).acts = fs.acts ++ extra := by
  induction receivers with
  | nil => intro oc fs; exact ⟨[], by simp [fanOutLoop]⟩
  | cons p rest ih =>
    intro oc fs
    obtain ⟨rid, iid⟩ := p
    cases hch : alookup subs rid with
    | none =>
      rw [fanOutLoop_cons_none subs meta data rid iid rest oc fs hch]
      exact ih _ fs
    | some channel =>
      cases ho : oc 0 with
      | success =>
        rcases data with _ | ⟨seg, len⟩
        · rw [fanOutLoop_cons_success_none subs meta rid iid rest oc fs channel hch ho]
          obtain ⟨extra, hex⟩ := ih (fun n => oc (n + 1))
            ⟨fs.sent, fs.nextId + 1, fs.closed,
              fs.acts ++ [.sendNodeEvent channel (.input iid meta none) (some 10)]⟩
          exact ⟨_, by rw [hex, List.append_assoc]⟩
        · rw [fanOutLoop_cons_success_some subs meta seg len rid iid rest oc fs channel hch ho]
          obtain ⟨extra, hex⟩ := ih (fun n => oc (n + 1))
            ⟨aInsert fs.nextId seg fs.sent, fs.nextId + 1, fs.closed,
              fs.acts ++ [.sendNodeEvent channel
                (.input iid meta (some ⟨seg, len, fs.nextId⟩)) (some 10)]⟩
          exact ⟨_, by rw [hex, List.append_assoc]⟩
      | closedErr =>
        rw [fanOutLoop_cons_closed subs meta data rid iid rest oc fs channel hch ho]
        obtain ⟨extra, hex⟩ := ih (fun n => oc (n + 1))
          ⟨fs.sent, fs.nextId + 1, fs.closed ++ [rid],
            fs.acts ++ [.sendNodeEvent channel
              (.input iid meta (data.map fun p => ⟨p.1, p.2, fs.nextId⟩)) (some 10)]⟩
        exact ⟨_, by rw [hex, List.append_assoc]⟩
      | timeoutErr =>
        rw [fanOutLoop_cons_timeout subs meta data rid iid rest oc fs channel hch ho]
        obtain ⟨extra, hex⟩ := ih (fun n => oc (n + 1))
          ⟨fs.sent, fs.nextId + 1, fs.closed,
            fs.acts ++ [.sendNodeEvent channel
              (.input iid meta (data.map fun p => ⟨p.1, p.2, fs.nextId⟩)) (some 10)]⟩
        exact ⟨_, by rw [hex, List.append_assoc]⟩

theorem fanOutLoop_closed_extend (subs : List (NodeId × Chan)) (meta : Metadata)
    (data : Option (SegmentId × Nat)) (receivers : List InputId) :
    ∀ (oc : Nat → SendOutcome) (fs : FanState),
    ∃ extra, (fanOutLoop subs meta data receivers oc fs).closed = fs.closed ++ extra := by
  induction receivers with
  | nil => intro oc fs; exact ⟨[], by simp [fanOutLoop]⟩
  | cons p rest ih =>
    intro oc fs
    obtain ⟨rid, iid⟩ := p
    cases hch : alookup subs rid with
    | none =>
      rw [fanOutLoop_cons_none subs meta data rid iid rest oc fs hch]
      exact ih _ fs
    | some channel =>
      cases ho : oc 0 with
      | success =>
        rcases data with _ | ⟨seg, len⟩
        · rw [fanOutLoop_cons_success_none subs meta rid iid rest oc fs channel hch ho]
          exact ih _ _
        · rw [fanOutLoop_cons_success_some subs meta seg len rid iid rest oc fs channel hch ho]
          exact ih _ _
      | closedErr =>
        rw [fanOutLoop_cons_closed subs meta data rid iid rest oc fs channel hch ho]
        obtain ⟨extra, hex⟩ := ih (fun n => oc (n + 1))
          ⟨fs.sent, fs.nextId + 1, fs.closed ++ [rid],
            fs.acts ++ [.sendNodeEvent channel
              (.input iid meta (data.map fun p => ⟨p.1, p.2, fs.nextId⟩)) (some 10)]⟩
        exact ⟨_, by rw [hex, List.append_assoc]⟩
      | timeoutErr =>
        rw [fanOutLoop_cons_timeout subs meta data rid iid rest oc fs channel hch ho]
        exact ih _ _

theorem fanOutLoop_sent_mem (subs : List (NodeId × Chan)) (meta : Metadata)
    (data : Option (SegmentId × Nat)) (receivers : List InputId) :
    ∀ (oc : Nat → SendOutcome) (fs : FanState) (t : DropToken) (s : SegmentId),
    FanInv fs.sent fs.nextId → (t, s) ∈ fs.sent →
    (t, s) ∈ (fanOutLoop subs meta data receivers oc fs).sent := by
  induction receivers with
  | nil => intro oc fs t s _ hmem; simpa [fanOutLoop] using hmem
  | cons p rest ih =>
    intro oc fs t s hinv hmem
    obtain ⟨rid, iid⟩ := p
    cases hch : alookup subs rid with
    | none =>
      rw [fanOutLoop_cons_none subs meta data rid iid rest oc fs hch]
      exact ih _ fs t s hinv hmem
    | some channel =>
      cases ho : oc 0 with
      | success =>
        rcases data with _ | ⟨seg, len⟩
        · rw [fanOutLoop_cons_success_none subs meta rid iid rest oc fs channel hch ho]
          exact ih _ _ t s (fanInv_succ hinv) hmem
        · rw [fanOutLoop_cons_success_some subs meta seg len rid iid rest oc fs channel hch ho]
          refine ih _ _ t s (fanInv_insert seg hinv) ?_
          have hne : t ≠ fs.nextId := Nat.ne_of_lt (hinv t (mem_akeys_of_mem hmem))
          exact mem_aInsert_of_ne hmem hne
      | closedErr =>
        rw [fanOutLoop_cons_closed subs meta data rid iid rest oc fs channel hch ho]
        exact ih _ _ t s (fanInv_succ hinv) hmem
      | timeoutErr =>
        rw [fanOutLoop_cons_timeout subs meta data rid iid rest oc fs channel hch ho]
        exact ih _ _ t s (fanInv_succ hinv) hmem

theorem fanOutLoop_sent_not_mem (subs : List (NodeId × Chan)) (meta : Metadata)
    (data : Option (SegmentId × Nat)) (receivers : List InputId) :
    ∀ (oc : Nat → SendOutcome) (fs : FanState) (t : DropToken),
    t ∉ akeys fs.sent → t < fs.nextId →
    t ∉ akeys (fanOutLoop subs meta data receivers oc fs).sent := by
  induction receivers with
  | nil => intro oc fs t hni _; simpa [fanOutLoop] using hni
  | cons p rest ih =>
    intro oc fs t hni hlt
    obtain ⟨rid, iid⟩ := p
    cases hch : alookup subs rid with
    | none =>
      rw [fanOutLoop_cons_none subs meta data rid iid rest oc fs hch]
      exact ih _ fs t hni hlt
    | some channel =>
      cases ho : oc 0 with
      | success =>
        rcases data with _ | ⟨seg, len⟩
        · rw [fanOutLoop_cons_success_none subs meta rid iid rest oc fs channel hch ho]
          exact ih _ _ t hni (Nat.lt_succ_of_lt hlt)
        · rw [fanOutLoop_cons_success_some subs meta seg len rid iid rest oc fs channel hch ho]
          refine ih _ _ t ?_ (Nat.lt_succ_of_lt hlt)
          exact not_mem_akeys_aInsert seg hni (Nat.ne_of_lt hlt)
      | closedErr =>
        rw [fanOutLoop_cons_closed subs meta data rid iid rest oc fs channel hch ho]
        exact ih _ _ t hni (Nat.lt_succ_of_lt hlt)
      | timeoutErr =>
        rw [fanOutLoop_cons_timeout subs meta data rid iid rest oc fs channel hch ho]
        exact ih _ _ t hni (Nat.lt_succ_of_lt hlt)

theorem fanOutLoop_acts_timeout10 (subs : List (NodeId × Chan)) (meta : Metadata)
    (data : Option (SegmentId × Nat)) (receivers : List InputId) :
    ∀ (oc : Nat → SendOutcome) (fs : FanState),
    (∀ c e t, EngineAction.sendNodeEvent c e t ∈ fs.acts → t = some 10) →
    ∀ c e t, EngineAction.sendNodeEvent c e t ∈
      (fanOutLoop subs meta data receivers oc fs).acts → t = some 10 := by
  induction receivers with
  | nil => intro oc fs h c e t hmem; exact h c e t (by simpa [fanOutLoop] using hmem)
  | cons p rest ih =>
    intro oc fs h c e t hmem
    obtain ⟨rid, iid⟩ := p
    cases hch : alookup subs rid with
    | none =>
      rw [fanOutLoop_cons_none subs meta data rid iid rest oc fs hch] at hmem
      exact ih _ fs h c e t hmem
    | some channel =>
      cases ho : oc 0 with
      | success =>
        rcases data with _ | ⟨seg, len⟩
        · rw [fanOutLoop_cons_success_none subs meta rid iid rest oc fs channel hch ho] at hmem
          refine ih _ _ ?_ c e t hmem
          intro c' e' t' hmem'
          rcases List.mem_append.mp hmem' with hmem' | hmem'
          · exact h c' e' t' hmem'
          · simp only [List.mem_singleton] at hmem'
            injection hmem' with h1 h2 h3
        · rw [fanOutLoop_cons_success_some subs meta seg len rid iid rest oc fs channel hch ho] at hmem
          refine ih _ _ ?_ c e t hmem
          intro c' e' t' hmem'
          rcases List.mem_append.mp hmem' with hmem' | hmem'
          · exact h c' e' t' hmem'
          · simp only [List.mem_singleton] at hmem'
            injection hmem' with h1 h2 h3
      | closedErr =>
        rw [fanOutLoop_cons_closed subs meta data rid iid rest oc fs channel hch ho] at hmem
        refine ih _ _ ?_ c e t hmem
        intro c' e' t' hmem'
        rcases List.mem_append.mp hmem' with hmem' | hmem'
        · exact h c' e' t' hmem'
        · simp only [List.mem_singleton] at hmem'
          injection hmem' with h1 h2 h3
      | timeoutErr =>
        rw [fanOutLoop_cons_timeout subs meta data rid iid rest oc fs channel hch ho] at hmem
        refine ih _ _ ?_ c e t hmem
        intro c' e' t' hmem'
        rcases List.mem_append.mp hmem' with hmem' | hmem'
        · exact h c' e' t' hmem'
        · simp only [List.mem_singleton] at hmem'
          injection hmem' with h1 h2 h3

theorem fanOutLoop_spec (subs : List (NodeId × Chan)) (meta : Metadata)
    (data : Option (SegmentId × Nat)) (receivers : List InputId) :
    ∀ (oc : Nat → SendOutcome) (fs : FanState),
    FanInv fs.sent fs.nextId →
    ∀ (i : Nat) (hi : i < receivers.length) (ch : Chan),
    alookup subs (receivers.get ⟨i, hi⟩).1 = some ch →
    ∃ tok : DropToken,
      tok ∉ akeys fs.sent ∧
      EngineAction.sendNodeEvent ch
        (.input (receivers.get ⟨i, hi⟩).2 meta
          (data.map fun p => ⟨p.1, p.2, tok⟩)) (some 10)
        ∈ (fanOutLoop subs meta data receivers oc fs).acts ∧
      (∀ seg len, oc i = .success → data = some (seg, len) →
        (tok, seg) ∈ (fanOutLoop subs meta data receivers oc fs).sent) ∧
      (oc i = .closedErr →
        (receivers.get ⟨i, hi⟩).1 ∈ (fanOutLoop subs meta data receivers oc fs).closed) ∧
      (oc i = .timeoutErr →
        tok ∉ akeys (fanOutLoop subs meta data receivers oc fs).sent) := by
  induction receivers with
  | nil => intro oc fs _ i hi; exact absurd hi (by simp)
  | cons p rest ih =>
    intro oc fs hinv i hi ch hlook
    obtain ⟨rid, iid⟩ := p
    cases i with
    | zero =>
      have hch : alookup subs rid = some ch := hlook
      cases ho : oc 0 with
      | success =>
        rcases data with _ | ⟨seg, len⟩
        · rw [fanOutLoop_cons_success_none subs meta rid iid rest oc fs ch hch ho]
          refine ⟨fs.nextId, fanInv_not_mem hinv, ?_, ?_, ?_, ?_⟩
          · obtain ⟨extra, hex⟩ := fanOutLoop_acts_extend subs meta none rest
              (fun n => oc (n + 1))
              ⟨fs.sent, fs.nextId + 1, fs.closed,
                fs.acts ++ [.sendNodeEvent ch (.input iid meta none) (some 10)]⟩
            rw [hex]
            simp
          · intro seg' len' _ hdata
            cases hdata
          · intro h; exact absurd h (by decide)
          · intro h; exact absurd h (by decide)
        · rw [fanOutLoop_cons_success_some subs meta seg len rid iid rest oc fs ch hch ho]
          refine ⟨fs.nextId, fanInv_not_mem hinv, ?_, ?_, ?_, ?_⟩
          · obtain ⟨extra, hex⟩ := fanOutLoop_acts_extend subs meta (some (seg, len)) rest
              (fun n => oc (n + 1))
              ⟨aInsert fs.nextId seg fs.sent, fs.nextId + 1, fs.closed,
                fs.acts ++ [.sendNodeEvent ch
                  (.input iid meta (some ⟨seg, len, fs.nextId⟩)) (some 10)]⟩
            rw [hex]
            simp
          · intro seg' len' _ hdata
            have hseg : seg = seg' := by injection hdata with h1; injection h1
            subst hseg
            refine fanOutLoop_sent_mem subs meta (some (seg, len)) rest
              (fun n => oc (n + 1)) _ fs.nextId seg (fanInv_insert seg hinv) ?_
            exact mem_aInsert_self fs.nextId seg fs.sent
          · intro h; exact absurd h (by decide)
          · intro h; exact absurd h (by decide)
      | closedErr =>
        rw [fanOutLoop_cons_closed subs meta data rid iid rest oc fs ch hch ho]
        refine ⟨fs.nextId, fanInv_not_mem hinv, ?_, ?_, ?_, ?_⟩
        · obtain ⟨extra, hex⟩ := fanOutLoop_acts_extend subs meta data rest
            (fun n => oc (n + 1))
            ⟨fs.sent, fs.nextId + 1, fs.closed ++ [rid],
              fs.acts ++ [.sendNodeEvent ch
                (.input iid meta (data.map fun p => ⟨p.1, p.2, fs.nextId⟩)) (some 10)]⟩
          rw [hex]
          simp
        · intro seg' len' h _; exact absurd h (by decide)
        · intro _
          obtain ⟨extra, hex⟩ := fanOutLoop_closed_extend subs meta data rest
            (fun n => oc (n + 1))
            ⟨fs.sent, fs.nextId + 1, fs.closed ++ [rid],
              fs.acts ++ [.sendNodeEvent ch
                (.input iid meta (data.map fun p => ⟨p.1, p.2, fs.nextId⟩)) (some 10)]⟩
          rw [hex]
          simp
        · intro h; exact absurd h (by decide)
      | timeoutErr =>
        rw [fanOutLoop_cons_timeout subs meta data rid iid rest oc fs ch hch ho]
        refine ⟨fs.nextId, fanInv_not_mem hinv, ?_, ?_, ?_, ?_⟩
        · obtain ⟨extra, hex⟩ := fanOutLoop_acts_extend subs meta data rest
            (fun n => oc (n + 1))
            ⟨fs.sent, fs.nextId + 1, fs.closed,
              fs.acts ++ [.sendNodeEvent ch
                (.input iid meta (data.map fun p => ⟨p.1, p.2, fs.nextId⟩)) (some 10)]⟩
          rw [hex]
          simp
        · intro seg' len' h _; exact absurd h (by decide)
        · intro h; exact absurd h (by decide)
        · intro _
          exact fanOutLoop_sent_not_mem subs meta data rest (fun n => oc (n + 1))
            ⟨fs.sent, fs.nextId + 1, fs.closed,
              fs.acts ++ [.sendNodeEvent ch
                (.input iid meta (data.map fun p => ⟨p.1, p.2, fs.nextId⟩)) (some 10)]⟩
            fs.nextId (fanInv_not_mem hinv) (Nat.lt_succ_self _)
    | succ j =>
      have hj : j < rest.length := Nat.lt_of_succ_lt_succ hi
      have hlook' : alookup subs (rest.get ⟨j, hj⟩).1 = some ch := hlook
      cases hch : alookup subs rid with
      | none =>
        rw [fanOutLoop_cons_none subs meta data rid iid rest oc fs hch]
        exact ih (fun n => oc (n + 1)) fs hinv j hj ch hlook'
      | some channel =>
        cases ho : oc 0 with
        | success =>
          rcases data with _ | ⟨seg, len⟩
          · rw [fanOutLoop_cons_success_none subs meta rid iid rest oc fs channel hch ho]
            exact ih (fun n => oc (n + 1))
              ⟨fs.sent, fs.nextId + 1, fs.closed,
                fs.acts ++ [.sendNodeEvent channel (.input iid meta none) (some 10)]⟩
              (fanInv_succ hinv) j hj ch hlook'
          · rw [fanOutLoop_cons_success_some subs meta seg len rid iid rest oc fs channel hch ho]
            obtain ⟨tok, htok, hrest⟩ := ih (fun n => oc (n + 1))
              ⟨aInsert fs.nextId seg fs.sent, fs.nextId + 1, fs.closed,
                fs.acts ++ [.sendNodeEvent channel
                  (.input iid meta (some ⟨seg, len, fs.nextId⟩)) (some 10)]⟩
              (fanInv_insert seg hinv) j hj ch hlook'
            exact ⟨tok, fun hmem => htok (akeys_aInsert_sub seg hmem), hrest⟩
        | closedErr =>
          rw [fanOutLoop_cons_closed subs meta data rid iid rest oc fs channel hch ho]
          exact ih (fun n => oc (n + 1))
            ⟨fs.sent, fs.nextId + 1, fs.closed ++ [rid],
              fs.acts ++ [.sendNodeEvent channel
                (.input iid meta (data.map fun p => ⟨p.1, p.2, fs.nextId⟩)) (some 10)]⟩
            (fanInv_succ hinv) j hj ch hlook'
        | timeoutErr =>
          rw [fanOutLoop_cons_timeout subs meta data rid iid rest oc fs channel hch ho]
          exact ih (fun n => oc (n + 1))
            ⟨fs.sent, fs.nextId + 1, fs.closed,
              fs.acts ++ [.sendNodeEvent channel
                (.input iid meta (data.map fun p => ⟨p.1, p.2, fs.nextId⟩)) (some 10)]⟩
            (fanInv_succ hinv) j hj ch hlook'

theorem exists_of_mem_akeys {K V : Type} {m : List (K × V)} {t : K}
    (h : t ∈ akeys m) : ∃ v, (t, v) ∈ m := by
  rcases List.mem_map.mp h with ⟨⟨a, b⟩, hm, rfl⟩
  exact ⟨b, hm⟩

theorem fanOutLoop_sent_append (subs : List (NodeId × Chan)) (meta : Metadata)
    (data : Option (SegmentId × Nat)) (receivers : List InputId) :
    ∀ (oc : Nat → SendOutcome) (fs : FanState),
    FanInv fs.sent fs.nextId →
    ∃ new, (fanOutLoop subs meta data receivers oc fs).sent = fs.sent ++ new ∧
      (∀ p ∈ new, fs.nextId ≤ p.1 ∧
        p.1 < (fanOutLoop subs meta data receivers oc fs).nextId ∧
        ∀ seg len, data = some (seg, len) → p.2 = seg) ∧
      (akeys new).Nodup ∧
      (data = none → new = []) := by
  induction receivers with
  | nil =>
    intro oc fs _
    exact ⟨[], by simp [fanOutLoop], by simp, by simp [akeys], fun _ => rfl⟩
  | cons p rest ih =>
    intro oc fs hinv
    obtain ⟨rid, iid⟩ := p
    cases hch : alookup subs rid with
    | none =>
      rw [fanOutLoop_cons_none subs meta data rid iid rest oc fs hch]
      exact ih _ fs hinv
    | some channel =>
      cases ho : oc 0 with
      | success =>
        rcases data with _ | ⟨seg, len⟩
        · rw [fanOutLoop_cons_success_none subs meta rid iid rest oc fs channel hch ho]
          obtain ⟨new, hsent, hb, hnd, hnone⟩ := ih (fun n => oc (n + 1))
            ⟨fs.sent, fs.nextId + 1, fs.closed,
              fs.acts ++ [.sendNodeEvent channel (.input iid meta none) (some 10)]⟩
            (fanInv_succ hinv)
          have hnil := hnone rfl
          subst hnil
          exact ⟨[], hsent, by simp, by simp [akeys], fun _ => rfl⟩
        · rw [fanOutLoop_cons_success_some subs meta seg len rid iid rest oc fs channel hch ho]
          obtain ⟨new, hsent, hb, hnd, _⟩ := ih (fun n => oc (n + 1))
            ⟨aInsert fs.nextId seg fs.sent, fs.nextId + 1, fs.closed,
              fs.acts ++ [.sendNodeEvent channel
                (.input iid meta (some ⟨seg, len, fs.nextId⟩)) (some 10)]⟩
            (fanInv_insert seg hinv)
          refine ⟨(fs.nextId, seg) :: new, ?_, ?_, ?_, ?_⟩
          · rw [hsent]
            show aInsert fs.nextId seg fs.sent ++ new = _
            rw [aInsert_of_not_mem seg (fanInv_not_mem hinv), List.append_assoc]
            rfl
          · intro q hq
            rcases List.mem_cons.mp hq with rfl | hq
            · refine ⟨Nat.le_refl _, ?_, ?_⟩
              · have hle := fanOutLoop_nextId_le subs meta (some (seg, len)) rest
                  (fun n => oc (n + 1))
                  ⟨aInsert fs.nextId seg fs.sent, fs.nextId + 1, fs.closed,
                    fs.acts ++ [.sendNodeEvent channel
                      (.input iid meta (some ⟨seg, len, fs.nextId⟩)) (some 10)]⟩
                exact Nat.lt_of_lt_of_le (Nat.lt_succ_self _) hle
              · intro seg' len' hd
                cases hd
                rfl
            · obtain ⟨h1, h2, h3⟩ := hb q hq
              exact ⟨le_trans (Nat.le_succ _) h1, h2, h3⟩
          · rw [show akeys ((fs.nextId, seg) :: new) = fs.nextId :: akeys new from rfl]
            refine List.nodup_cons.mpr ⟨?_, hnd⟩
            intro hmem
            obtain ⟨v, hv⟩ := exists_of_mem_akeys hmem
            obtain ⟨h1, _, _⟩ := hb (fs.nextId, v) hv
            exact absurd (h1 : fs.nextId + 1 ≤ fs.nextId) (Nat.not_succ_le_self _)
          · intro hd; cases hd
      | closedErr =>
        rw [fanOutLoop_cons_closed subs meta data rid iid rest oc fs channel hch ho]
        obtain ⟨new, hsent, hb, hnd, hnone⟩ := ih (fun n => oc (n + 1))
          ⟨fs.sent, fs.nextId + 1, fs.closed ++ [rid],
            fs.acts ++ [.sendNodeEvent channel
              (.input iid meta (data.map fun p => ⟨p.1, p.2, fs.nextId⟩)) (some 10)]⟩
          (fanInv_succ hinv)
        refine ⟨new, hsent, ?_, hnd, hnone⟩
        intro q hq
        obtain ⟨h1, h2, h3⟩ := hb q hq
        exact ⟨le_trans (Nat.le_succ _) h1, h2, h3⟩
      | timeoutErr =>
        rw [fanOutLoop_cons_timeout subs meta data rid iid rest oc fs channel hch ho]
        obtain ⟨new, hsent, hb, hnd, hnone⟩ := ih (fun n => oc (n + 1))
          ⟨fs.sent, fs.nextId + 1, fs.closed,
            fs.acts ++ [.sendNodeEvent channel
              (.input iid meta (data.map fun p => ⟨p.1, p.2, fs.nextId⟩)) (some 10)]⟩
          (fanInv_succ hinv)
        refine ⟨new, hsent, ?_, hnd, hnone⟩
        intro q hq
        obtain ⟨h1, h2, h3⟩ := hb q hq
        exact ⟨le_trans (Nat.le_succ _) h1, h2, h3⟩

theorem timerLoop_acts_timeout1 (subs : List (NodeId × Chan)) (meta : Metadata)
    (subscribers : List InputId) :
    ∀ (oc : Nat → SendOutcome) (c : Chan) (e : NodeEventMsg) (t : Option Nat),
    EngineAction.sendNodeEvent c e t ∈ (timerLoop subs meta subscribers oc).2 →
    t = some 1 := by
  induction subscribers with
  | nil => intro oc c e t hmem; simp [timerLoop] at hmem
  | cons p rest ih =>
    intro oc c e t hmem
    obtain ⟨rid, iid⟩ := p
    cases hch : alookup subs rid with
    | none =>
      rw [show timerLoop subs meta ((rid, iid) :: rest) oc =
          timerLoop subs meta rest (fun n => oc (n + 1)) by simp [timerLoop, hch]] at hmem
      exact ih _ c e t hmem
    | some channel =>
      have hsnd : (timerLoop subs meta ((rid, iid) :: rest) oc).2 =
          EngineAction.sendNodeEvent channel (.input iid meta none) (some 1) ::
          (timerLoop subs meta rest (fun n => oc (n + 1))).2 := by
        rcases htl : timerLoop subs meta rest (fun n => oc (n + 1)) with ⟨closed, acts⟩
        cases ho : oc 0 <;> simp [timerLoop, hch, htl, ho]
      rw [hsnd] at hmem
      rcases List.mem_cons.mp hmem with hmem | hmem
      · injection hmem with h1 h2 h3
      · exact ih _ c e t hmem

theorem stoppedLoop_acts_closed_none (pairs : List InputId) :
    ∀ (d : RunningDataflow) (c : Chan) (e : NodeEventMsg) (t : Option Nat),
    EngineAction.sendNodeEvent c e t ∈ (stoppedLoop pairs d).2 →
    t = none ∧ ∃ i, e = NodeEventMsg.inputClosed i := by
  induction pairs with
  | nil => intro d c e t hmem; simp [stoppedLoop] at hmem
  | cons p rest ih =>
    intro d c e t hmem
    obtain ⟨rid, iid⟩ := p
    cases hch : alookup d.subscribe_channels rid with
    | none =>
      rw [show stoppedLoop ((rid, iid) :: rest) d = stoppedLoop rest d by
        simp [stoppedLoop, hch]] at hmem
      exact ih d c e t hmem
    | some channel =>
      have hsnd : ∃ d1, (stoppedLoop ((rid, iid) :: rest) d).2 =
          EngineAction.sendNodeEvent channel (.inputClosed iid) none ::
          (stoppedLoop rest d1).2 := by
        cases hop : alookup d.open_inputs rid with
        | none =>
          refine ⟨d, ?_⟩
          rcases hrec : stoppedLoop rest d with ⟨d2, acts2⟩
          simp [stoppedLoop, hch, hop, hrec]
        | some open_in =>
          by_cases hemp : open_in.erase iid = []
          · refine ⟨{ { d with open_inputs := aInsert rid (open_in.erase iid) d.open_inputs } with subscribe_channels := aErase rid d.subscribe_channels }, ?_⟩
            rcases hrec : stoppedLoop rest { { d with open_inputs := aInsert rid (open_in.erase iid) d.open_inputs } with subscribe_channels := aErase rid d.subscribe_channels } with ⟨d2, acts2⟩
            simp [stoppedLoop, hch, hop, hemp, hrec]
          · refine ⟨{ d with open_inputs := aInsert rid (open_in.erase iid) d.open_inputs }, ?_⟩
            rcases hrec : stoppedLoop rest { d with open_inputs := aInsert rid (open_in.erase iid) d.open_inputs } with ⟨d2, acts2⟩
            simp [stoppedLoop, hch, hop, hemp, hrec]
      obtain ⟨d1, hsnd⟩ := hsnd
      rw [hsnd] at hmem
      rcases List.mem_cons.mp hmem with hmem | hmem
      · injection hmem with h1 h2 h3
        exact ⟨h3, iid, h2⟩
      · exact ih d1 c e t hmem

/-! ### Claim C2 -/

/-- Claim C2: in the fan-out of one `SendOutMessage`, for each local
receiver in `mappings[(node_id, output_id)]` that has a subscribe
channel, a fresh `DropToken` is minted and the `Input` event is
enqueued with a 10 ms timeout; if the enqueue succeeds and a
shared-memory segment is attached, `(drop_token, shared handle)` is
inserted into `sent_out_shared_memory`; if the channel is closed the
receiver is removed from `subscribe_channels`; if the enqueue times
out, no token is recorded for that delivery. The freshness hypothesis
`hfresh` is the engine's token-freshness invariant (tokens are minted
by a monotone counter). -/
theorem claim_C2_fanout (st : Daemon) (df : DataflowId) (n : NodeId)
    (id : MessageId) (oc : Nat → SendOutcome)
    (message : PreparedMessage) (dataflow : RunningDataflow)
    (hmsg : alookup st.prepared_messages id = some message)
    (hdf : alookup st.running df = some dataflow)
    (hfresh : ∀ t ∈ akeys st.sent_out_shared_memory, t < st.next_id)
    (acts : List EngineAction) (st' : Daemon)
    (hrun : handle_node_event st (.sendOutMessage id oc) df n = (acts, .ok st'))
    (receivers : List InputId)
    (hrecv : receivers = (alookup dataflow.mappings (n, message.output_id)).getD [])
    (i : Nat) (hi : i < receivers.length) (ch : Chan)
    (hch : alookup dataflow.subscribe_channels (receivers.get ⟨i, hi⟩).1 = some ch) :
    ∃ tok : DropToken,
      tok ∉ akeys st.sent_out_shared_memory ∧
      EngineAction.sendNodeEvent ch
        (.input (receivers.get ⟨i, hi⟩).2 message.metadata
          (message.data.map fun p => ⟨p.1, p.2, tok⟩)) (some 10) ∈ acts ∧
      (∀ seg len, oc i = .success → message.data = some (seg, len) →
        (tok, seg) ∈ st'.sent_out_shared_memory) ∧
      (oc i = .closedErr → ∀ df2, alookup st'.running df = some df2 →
        alookup df2.subscribe_channels (receivers.get ⟨i, hi⟩).1 = none) ∧
      (oc i = .timeoutErr → tok ∉ akeys st'.sent_out_shared_memory) := by
  subst hrecv
  simp only [handle_node_event, hmsg, hdf] at hrun
  rw [Prod.mk.injEq] at hrun
  obtain ⟨hacts, hok⟩ := hrun
  injection hok with hst
  obtain ⟨tok, htok, hact, hsucc, hclosed, htimeout⟩ :=
    fanOutLoop_spec dataflow.subscribe_channels message.metadata message.data
      ((alookup dataflow.mappings (n, message.output_id)).getD []) oc
      ⟨st.sent_out_shared_memory, st.next_id, [], []⟩ hfresh i hi ch hch
  refine ⟨tok, htok, ?_, ?_, ?_, ?_⟩
  · rw [← hacts]
    exact List.mem_append_left _ hact
  · intro seg len h1 h2
    rw [← hst]
    exact hsucc seg len h1 h2
  · intro h1 df2 hdf2
    rw [← hst] at hdf2
    rw [alookup_aInsert] at hdf2
    simp at hdf2
    rw [← hdf2]
    simp only [alookup_foldl_aErase]
    rw [if_pos (hclosed h1)]
  · intro h1
    rw [← hst]
    exact htimeout h1

/-- Witness for `claim_C2_fanout`: `exDaemon` with a prepared
4-byte message on segment 100. -/
def exPrepared : Daemon :=
  { exDaemon with
    prepared_messages := [(100, ⟨"x", 55, some (100, 4)⟩)]
    next_id := 101 }

theorem claim_C2_witness :
    ∃ tok : DropToken,
      tok ∉ akeys exPrepared.sent_out_shared_memory ∧
      EngineAction.sendNodeEvent 1
        (.input "in" 55 (some ⟨100, 4, tok⟩)) (some 10) ∈
          (handle_node_event exPrepared
            (.sendOutMessage 100 (fun _ => .success)) 7 "p").1 ∧
      ∀ seg len, SendOutcome.success = SendOutcome.success →
        (some (100, 4) : Option (SegmentId × Nat)) = some (seg, len) →
        (tok, seg) ∈ ([(101, 100), (102, 100)] : List (DropToken × SegmentId)) := by
  obtain ⟨tok, h1, h2, h3, _, _⟩ := claim_C2_fanout exPrepared 7 "p" 100
    (fun _ => .success) ⟨"x", 55, some (100, 4)⟩ exDataflow rfl rfl (by decide)
    (handle_node_event exPrepared (.sendOutMessage 100 (fun _ => .success)) 7 "p").1
    { prepared_messages := [], sent_out_shared_memory := [(101, 100), (102, 100)], running := [(7, exDataflow)], coordinator_addr := false, exit_when_done := none, next_id := 103 }
    (by rfl) [("a", "in"), ("b", "in")] (by rfl) 0 (by decide) 1 (by rfl)
  exact ⟨tok, h1, h2, h3⟩

/-! ### Claim C9 -/

/-- Claim C9: the three delivery timeout constants. Every channel
send attempted by the `SendOutMessage` fan-out carries a 10 ms
timeout, every timer-tick send a 1 ms timeout, and every
`Stopped`-driven `InputClosed` send is awaited with no timeout. -/
theorem claim_C9_timeouts :
    (∀ (st : Daemon) (df : DataflowId) (n : NodeId) (id : MessageId)
      (oc : Nat → SendOutcome) (acts : List EngineAction)
      (r : Except String Daemon),
      handle_node_event st (.sendOutMessage id oc) df n = (acts, r) →
      ∀ c e t, EngineAction.sendNodeEvent c e t ∈ acts → t = some 10) ∧
    (∀ (st : Daemon) (df : DataflowId) (interval : Nat) (meta : Metadata)
      (oc : Nat → SendOutcome) (acts : List EngineAction)
      (r : Except String (Daemon × RunStatus)),
      handle_dora_event st (.timer df interval meta oc) = (acts, r) →
      ∀ c e t, EngineAction.sendNodeEvent c e t ∈ acts → t = some 1) ∧
    (∀ (st : Daemon) (df : DataflowId) (n : NodeId) (acts : List EngineAction)
      (r : Except String Daemon),
      handle_node_event st .stopped df n = (acts, r) →
      ∀ c e t, EngineAction.sendNodeEvent c e t ∈ acts → t = none) := by
  refine ⟨?_, ?_, ?_⟩
  · intro st df n id oc acts r hrun c e t hmem
    cases hmsg : alookup st.prepared_messages id with
    | none =>
      simp [handle_node_event, hmsg] at hrun
      rw [hrun.1] at hmem
      simp at hmem
    | some message =>
      cases hdf : alookup st.running df with
      | none =>
        simp [handle_node_event, hmsg, hdf] at hrun
        rw [hrun.1] at hmem
        simp at hmem
      | some dataflow =>
        simp only [handle_node_event, hmsg, hdf] at hrun
        rw [Prod.mk.injEq] at hrun
        rw [← hrun.1] at hmem
        rcases List.mem_append.mp hmem with hmem | hmem
        · refine fanOutLoop_acts_timeout10 dataflow.subscribe_channels
            message.metadata message.data
            ((alookup dataflow.mappings (n, message.output_id)).getD []) oc
            ⟨st.sent_out_shared_memory, st.next_id, [], []⟩ ?_ c e t hmem
          intro c' e' t' hmem'
          simp at hmem'
        · simp only [List.mem_singleton] at hmem
          exact absurd hmem (by simp)
  · intro st df interval meta oc acts r hrun c e t hmem
    cases hdf : alookup st.running df with
    | none =>
      simp [handle_dora_event, hdf] at hrun
      rw [hrun.1] at hmem
      simp at hmem
    | some dataflow =>
      cases hti : alookup dataflow.timers interval with
      | none =>
        simp [handle_dora_event, hdf, hti] at hrun
        rw [hrun.1] at hmem
        simp at hmem
      | some subscribers =>
        rcases htl : timerLoop dataflow.subscribe_channels meta subscribers oc
          with ⟨closed, tacts⟩
        simp only [handle_dora_event, hdf, hti, htl] at hrun
        rw [Prod.mk.injEq] at hrun
        rw [← hrun.1] at hmem
        have := timerLoop_acts_timeout1 dataflow.subscribe_channels meta
          subscribers oc c e t
        rw [htl] at this
        exact this hmem
  · intro st df n acts r hrun c e t hmem
    cases hdf : alookup st.running df with
    | none =>
      simp [handle_node_event, hdf] at hrun
      rw [← hrun.1] at hmem
      simp at hmem
    | some dataflow =>
      simp only [handle_node_event, hdf] at hrun
      by_cases hemp :
          ((stoppedLoop (downstreamOf dataflow.mappings n) dataflow).1.running_nodes).erase n = []
      · simp only [hemp, if_pos rfl] at hrun
        rw [Prod.mk.injEq] at hrun
        rw [← hrun.1] at hmem
        rcases List.mem_append.mp hmem with hmem | hmem
        · rcases List.mem_append.mp hmem with hmem | hmem
          · simp only [List.mem_singleton] at hmem
            exact absurd hmem (by simp)
          · exact (stoppedLoop_acts_closed_none (downstreamOf dataflow.mappings n)
              dataflow c e t hmem).1
        · by_cases haddr : st.coordinator_addr <;> simp [haddr] at hmem
      · simp only [hemp, if_neg hemp] at hrun
        rw [Prod.mk.injEq] at hrun
        rw [← hrun.1] at hmem
        rcases List.mem_cons.mp hmem with hmem | hmem
        · exact absurd hmem (by simp)
        · exact (stoppedLoop_acts_closed_none (downstreamOf dataflow.mappings n)
            dataflow c e t hmem).1

/-- Example dataflow with a
100 ms timer feeding input `tick` of node `a` (channel 1). -/
def exTimerDaemon : Daemon :=
  { running := [(8,
      { subscribe_channels := [("a", 1)]
        timers := [(100, [("a", "tick")])]
        open_inputs := [("a", ["tick"])]
        running_nodes := ["a"] })] }

/-- Witness for `claim_C9_timeouts`: one concrete send of each kind. -/
theorem claim_C9_witness :
    (some 10 : Option Nat) = some 10 ∧ (some 1 : Option Nat) = some 1 ∧
    (none : Option Nat) = none :=
  ⟨claim_C9_timeouts.1 exPrepared 7 "p" 100 (fun _ => .success)
      (handle_node_event exPrepared
        (.sendOutMessage 100 (fun _ => .success)) 7 "p").1
      (handle_node_event exPrepared
        (.sendOutMessage 100 (fun _ => .success)) 7 "p").2
      rfl 1 (.input "in" 55 (some ⟨100, 4, 101⟩)) (some 10) (by decide),
   claim_C9_timeouts.2.1 exTimerDaemon 8 100 9 (fun _ => .success)
      (handle_dora_event exTimerDaemon (.timer 8 100 9 (fun _ => .success))).1
      (handle_dora_event exTimerDaemon (.timer 8 100 9 (fun _ => .success))).2
      rfl 1 (.input "tick" 9 none) (some 1) (by decide),
   claim_C9_timeouts.2.2 exDaemon 7 "p"
      (handle_node_event exDaemon .stopped 7 "p").1
      (handle_node_event exDaemon .stopped 7 "p").2
      rfl 1 (.inputClosed "in") none (by decide)⟩

/-! ### Drop accounting (claim C5) -/

theorem akeys_append {K V : Type} (xs ys : List (K × V)) :
    akeys (xs ++ ys) = akeys xs ++ akeys ys := by
  simp [akeys]

/-- Iterated handling of `Event::Drop` events, one per listed token. -/
def dropAll (st : Daemon) : List DropToken → Daemon
  | [] => st
  | t :: rest => dropAll (handle_drop st t).1 rest

theorem handle_drop_fields (st : Daemon) (token : DropToken) :
    (handle_drop st token).1.prepared_messages = st.prepared_messages ∧
    (handle_drop st token).1.running = st.running ∧
    (handle_drop st token).1.next_id = st.next_id := by
  cases h : alookup st.sent_out_shared_memory token <;> simp [handle_drop, h]

theorem dropAll_prepared (l : List DropToken) :
    ∀ st : Daemon, (dropAll st l).prepared_messages = st.prepared_messages := by
  induction l with
  | nil => intro st; rfl
  | cons t rest ih =>
    intro st
    rw [show dropAll st (t :: rest) = dropAll (handle_drop st t).1 rest from rfl,
      ih, (handle_drop_fields st t).1]

theorem dropAll_middle (new1 : List (DropToken × SegmentId)) :
    ∀ (st : Daemon) (base suffix : List (DropToken × SegmentId)),
    st.sent_out_shared_memory = base ++ new1 ++ suffix →
    (akeys new1).Nodup →
    (∀ t ∈ akeys new1, t ∉ akeys base ∧ t ∉ akeys suffix) →
    (dropAll st (akeys new1)).sent_out_shared_memory = base ++ suffix := by
  induction new1 with
  | nil =>
    intro st base suffix hsent _ _
    simpa using hsent
  | cons q rest ih =>
    intro st base suffix hsent hnd hdisj
    obtain ⟨t, v⟩ := q
    have ht0 : t ∈ akeys ((t, v) :: rest) := by
      rw [akeys_cons]; exact List.mem_cons_self _ _
    have htb : t ∉ akeys base := (hdisj t ht0).1
    have hts : t ∉ akeys suffix := (hdisj t ht0).2
    have htr : t ∉ akeys rest := by
      rw [akeys_cons] at hnd
      exact (List.nodup_cons.mp hnd).1
    have hsent' : st.sent_out_shared_memory = base ++ ((t, v) :: (rest ++ suffix)) := by
      rw [hsent, List.append_assoc]
      rfl
    have hlook : alookup st.sent_out_shared_memory t = some v := by
      rw [hsent', alookup_append_right _ htb]
      simp [alookup]
    have hstep : (handle_drop st t).1 =
        { st with sent_out_shared_memory := aErase t st.sent_out_shared_memory } := by
      simp [handle_drop, hlook]
    have hsent2 : (handle_drop st t).1.sent_out_shared_memory =
        base ++ rest ++ suffix := by
      rw [hstep]
      show aErase t st.sent_out_shared_memory = base ++ rest ++ suffix
      rw [hsent', aErase_append, aErase_of_not_mem htb,
        aErase_cons_self v (rest ++ suffix) rfl, aErase_append,
        aErase_of_not_mem htr, aErase_of_not_mem hts, List.append_assoc]
    rw [show akeys ((t, v) :: rest) = t :: akeys rest from rfl]
    rw [show dropAll st (t :: akeys rest) = dropAll (handle_drop st t).1 (akeys rest)
      from rfl]
    refine ih (handle_drop st t).1 base suffix hsent2 ?_ ?_
    · rw [akeys_cons] at hnd
      exact (List.nodup_cons.mp hnd).2
    · intro t' ht'
      refine ⟨(hdisj t' ?_).1, (hdisj t' ?_).2⟩ <;>
        · rw [akeys_cons]; exact List.mem_cons_of_mem _ ht'

theorem akeys_eq_append_singleton {K V : Type} (m : List (K × V)) :
    ∀ (pre : List K) (t : K), akeys m = pre ++ [t] →
    ∃ m1 v, m = m1 ++ [(t, v)] ∧ akeys m1 = pre := by
  induction m with
  | nil =>
    intro pre t h
    rw [show akeys ([] : List (K × V)) = [] from rfl] at h
    exact absurd h.symm (List.append_ne_nil_of_right_ne_nil _ (by simp))
  | cons q rest ih =>
    intro pre t h
    obtain ⟨k, v⟩ := q
    rw [akeys_cons] at h
    cases pre with
    | nil =>
      simp at h
      obtain ⟨rfl, hrest⟩ := h
      have : rest = [] := by
        cases rest with
        | nil => rfl
        | cons r rs => simp [akeys] at hrest
      subst this
      exact ⟨[], v, rfl, rfl⟩
    | cons p0 pre' =>
      simp only [List.cons_append, List.cons.injEq] at h
      obtain ⟨rfl, hrest⟩ := h
      obtain ⟨m1, v', hm, hk⟩ := ih pre' t hrest
      exact ⟨(k, v) :: m1, v', by rw [hm]; rfl, by rw [akeys_cons, hk]⟩

/-! ### Claim C5 -/

/-- Claim C5: a `PrepareOutputMessage` (allocating a segment), the
matching `SendOutMessage`, and one `Drop` per successful delivery
return `prepared_messages` and `sent_out_shared_memory` to exactly
their contents before the Prepare, and the final `Drop` releases the
segment's last reference (`Rc::try_unwrap` succeeds). `hpre`/`hsent`
are the engine's freshness invariants for the id counter. -/
theorem claim_C5_prepare_send_drop (st : Daemon) (df : DataflowId) (node : NodeId)
    (output_id : DataId) (meta : Metadata) (data_len : Nat) (oc : Nat → SendOutcome)
    (dataflow : RunningDataflow)
    (hdf : alookup st.running df = some dataflow)
    (hlen : 0 < data_len)
    (hpre : ∀ k ∈ akeys st.prepared_messages, k < st.next_id)
    (hsent : ∀ p ∈ st.sent_out_shared_memory, p.1 < st.next_id ∧ p.2 < st.next_id) :
    ∃ st1 st2 new,
      handle_node_event st (.prepareOutputMessage output_id meta data_len true true)
        df node = ([.reply (.preparedMessage st.next_id)], .ok st1) ∧
      (handle_node_event st1 (.sendOutMessage st.next_id oc) df node).2 = .ok st2 ∧
      st2.prepared_messages = st.prepared_messages ∧
      st2.sent_out_shared_memory = st.sent_out_shared_memory ++ new ∧
      (dropAll st2 (akeys new)).prepared_messages = st.prepared_messages ∧
      (dropAll st2 (akeys new)).sent_out_shared_memory = st.sent_out_shared_memory ∧
      (∀ pre t, akeys new = pre ++ [t] →
        (handle_drop (dropAll st2 pre) t).2 = true) := by
  have hFLinv : FanInv st.sent_out_shared_memory (st.next_id + 1) := by
    intro t ht
    obtain ⟨v, hv⟩ := exists_of_mem_akeys ht
    exact Nat.lt_succ_of_lt (hsent (t, v) hv).1
  obtain ⟨new, hnew, hb, hnd, -⟩ :=
    fanOutLoop_sent_append dataflow.subscribe_channels meta
      (some (st.next_id, data_len))
      ((alookup dataflow.mappings (node, output_id)).getD []) oc
      ⟨st.sent_out_shared_memory, st.next_id + 1, [], []⟩ hFLinv
  have hnotmem : st.next_id ∉ akeys st.prepared_messages :=
    fun hm => absurd (hpre _ hm) (Nat.lt_irrefl _)
  have hkeysnew : ∀ t ∈ akeys new, st.next_id + 1 ≤ t ∧
      t ∉ akeys st.sent_out_shared_memory := by
    intro t ht
    obtain ⟨v, hv⟩ := exists_of_mem_akeys ht
    have h1 : st.next_id + 1 ≤ t := (hb (t, v) hv).1
    refine ⟨h1, fun hm => ?_⟩
    obtain ⟨v', hv'⟩ := exists_of_mem_akeys hm
    have h2 : t < st.next_id := (hsent (t, v') hv').1
    exact absurd (Nat.lt_trans h2 (Nat.lt_of_succ_le h1)) (Nat.lt_irrefl t)
  refine ⟨{ st with
      prepared_messages := aInsert st.next_id ⟨output_id, meta, some (st.next_id, data_len)⟩ st.prepared_messages,
      next_id := st.next_id + 1 },
    { st with
      prepared_messages := aErase st.next_id (aInsert st.next_id ⟨output_id, meta, some (st.next_id, data_len)⟩ st.prepared_messages),
      sent_out_shared_memory := (fanOutLoop dataflow.subscribe_channels meta (some (st.next_id, data_len)) ((alookup dataflow.mappings (node, output_id)).getD []) oc ⟨st.sent_out_shared_memory, st.next_id + 1, [], []⟩).sent,
      next_id := (fanOutLoop dataflow.subscribe_channels meta (some (st.next_id, data_len)) ((alookup dataflow.mappings (node, output_id)).getD []) oc ⟨st.sent_out_shared_memory, st.next_id + 1, [], []⟩).nextId,
      running := aInsert df { dataflow with subscribe_channels := (fanOutLoop dataflow.subscribe_channels meta (some (st.next_id, data_len)) ((alookup dataflow.mappings (node, output_id)).getD []) oc ⟨st.sent_out_shared_memory, st.next_id + 1, [], []⟩).closed.foldl (fun m i => aErase i m) dataflow.subscribe_channels } st.running },
    new, ?_, ?_, ?_, ?_, ?_, ?_, ?_⟩
  · simp [handle_node_event, hlen]
  · have hlook1 : alookup (aInsert st.next_id
        (⟨output_id, meta, some (st.next_id, data_len)⟩ : PreparedMessage)
        st.prepared_messages) st.next_id =
        some ⟨output_id, meta, some (st.next_id, data_len)⟩ := by
      rw [alookup_aInsert]
      simp
    simp only [handle_node_event, hlook1, hdf]
  · show aErase st.next_id (aInsert st.next_id _ st.prepared_messages) =
      st.prepared_messages
    rw [aErase_aInsert]
    exact aErase_of_not_mem hnotmem
  · exact hnew
  · rw [dropAll_prepared]
    show aErase st.next_id (aInsert st.next_id _ st.prepared_messages) =
      st.prepared_messages
    rw [aErase_aInsert]
    exact aErase_of_not_mem hnotmem
  · have hmid := dropAll_middle new
      { st with prepared_messages := aErase st.next_id (aInsert st.next_id ⟨output_id, meta, some (st.next_id, data_len)⟩ st.prepared_messages), sent_out_shared_memory := (fanOutLoop dataflow.subscribe_channels meta (some (st.next_id, data_len)) ((alookup dataflow.mappings (node, output_id)).getD []) oc ⟨st.sent_out_shared_memory, st.next_id + 1, [], []⟩).sent, next_id := (fanOutLoop dataflow.subscribe_channels meta (some (st.next_id, data_len)) ((alookup dataflow.mappings (node, output_id)).getD []) oc ⟨st.sent_out_shared_memory, st.next_id + 1, [], []⟩).nextId, running := aInsert df { dataflow with subscribe_channels := (fanOutLoop dataflow.subscribe_channels meta (some (st.next_id, data_len)) ((alookup dataflow.mappings (node, output_id)).getD []) oc ⟨st.sent_out_shared_memory, st.next_id + 1, [], []⟩).closed.foldl (fun m i => aErase i m) dataflow.subscribe_channels } st.running }
      st.sent_out_shared_memory []
      (by rw [List.append_nil]; exact hnew) hnd
      (by intro t ht
          exact ⟨(hkeysnew t ht).2, by simp [akeys]⟩)
    rw [hmid, List.append_nil]
  · intro pre t hpt
    obtain ⟨new1, v, hdecomp, hkeys⟩ := akeys_eq_append_singleton new pre t hpt
    subst hdecomp
    subst hkeys
    have hndsplit : (akeys new1).Nodup ∧ t ∉ akeys new1 := by
      rw [akeys_append] at hnd
      rw [show akeys [(t, v)] = [t] from rfl] at hnd
      rw [List.nodup_append] at hnd
      exact ⟨hnd.1, fun hm => hnd.2.2 hm (List.mem_singleton_self t)⟩
    have htv_mem : (t, v) ∈ new1 ++ [(t, v)] :=
      List.mem_append_right _ (List.mem_singleton_self _)
    have htfresh : t ∉ akeys st.sent_out_shared_memory := by
      refine (hkeysnew t ?_).2
      rw [akeys_append]
      exact List.mem_append_right _ (List.mem_singleton_self t)
    have hdisj : ∀ t' ∈ akeys new1,
        t' ∉ akeys st.sent_out_shared_memory ∧ t' ∉ akeys [(t, v)] := by
      intro t' ht'
      have ht'new : t' ∈ akeys (new1 ++ [(t, v)]) := by
        rw [akeys_append]; exact List.mem_append_left _ ht'
      refine ⟨(hkeysnew t' ht'new).2, ?_⟩
      rw [show akeys [(t, v)] = [t] from rfl]
      intro hm
      rcases List.mem_singleton.mp hm with rfl
      exact hndsplit.2 ht'
    rw [← List.append_assoc] at hnew
    have h3 := dropAll_middle new1
      { st with prepared_messages := aErase st.next_id (aInsert st.next_id ⟨output_id, meta, some (st.next_id, data_len)⟩ st.prepared_messages), sent_out_shared_memory := (fanOutLoop dataflow.subscribe_channels meta (some (st.next_id, data_len)) ((alookup dataflow.mappings (node, output_id)).getD []) oc ⟨st.sent_out_shared_memory, st.next_id + 1, [], []⟩).sent, next_id := (fanOutLoop dataflow.subscribe_channels meta (some (st.next_id, data_len)) ((alookup dataflow.mappings (node, output_id)).getD []) oc ⟨st.sent_out_shared_memory, st.next_id + 1, [], []⟩).nextId, running := aInsert df { dataflow with subscribe_channels := (fanOutLoop dataflow.subscribe_channels meta (some (st.next_id, data_len)) ((alookup dataflow.mappings (node, output_id)).getD []) oc ⟨st.sent_out_shared_memory, st.next_id + 1, [], []⟩).closed.foldl (fun m i => aErase i m) dataflow.subscribe_channels } st.running }
      st.sent_out_shared_memory [(t, v)]
      hnew hndsplit.1 hdisj
    have hlookt : alookup (dropAll
        { st with prepared_messages := aErase st.next_id (aInsert st.next_id ⟨output_id, meta, some (st.next_id, data_len)⟩ st.prepared_messages), sent_out_shared_memory := (fanOutLoop dataflow.subscribe_channels meta (some (st.next_id, data_len)) ((alookup dataflow.mappings (node, output_id)).getD []) oc ⟨st.sent_out_shared_memory, st.next_id + 1, [], []⟩).sent, next_id := (fanOutLoop dataflow.subscribe_channels meta (some (st.next_id, data_len)) ((alookup dataflow.mappings (node, output_id)).getD []) oc ⟨st.sent_out_shared_memory, st.next_id + 1, [], []⟩).nextId, running := aInsert df { dataflow with subscribe_channels := (fanOutLoop dataflow.subscribe_channels meta (some (st.next_id, data_len)) ((alookup dataflow.mappings (node, output_id)).getD []) oc ⟨st.sent_out_shared_memory, st.next_id + 1, [], []⟩).closed.foldl (fun m i => aErase i m) dataflow.subscribe_channels } st.running }
        (akeys new1)).sent_out_shared_memory t = some v := by
      rw [h3, alookup_append_right _ htfresh]
      simp [alookup]
    simp only [handle_drop, hlookt]
    rw [h3, aErase_append, aErase_of_not_mem htfresh,
      aErase_cons_self v [] rfl]
    rw [show aErase t ([] : List (DropToken × SegmentId)) = [] from rfl, List.append_nil]
    apply List.all_eq_true.mpr
    intro p hp
    have hv : v = st.next_id :=
      (hb (t, v) htv_mem).2.2 st.next_id data_len rfl
    have hlt := (hsent p hp).2
    rw [hv]
    exact bne_iff_ne.mpr (Nat.ne_of_lt hlt)

/-- Witness for `claim_C5_prepare_send_drop`: a 4-byte output of `p`
in `exDaemon`, delivered successfully to both subscribers. -/
theorem claim_C5_witness :
    ∃ st1 st2 new,
      handle_node_event exDaemon (.prepareOutputMessage "x" 55 4 true true) 7 "p" =
        ([.reply (.preparedMessage 100)], .ok st1) ∧
      (handle_node_event st1 (.sendOutMessage 100 (fun _ => .success)) 7 "p").2 =
        .ok st2 ∧
      st2.prepared_messages = exDaemon.prepared_messages ∧
      st2.sent_out_shared_memory = exDaemon.sent_out_shared_memory ++ new ∧
      (dropAll st2 (akeys new)).prepared_messages = exDaemon.prepared_messages ∧
      (dropAll st2 (akeys new)).sent_out_shared_memory =
        exDaemon.sent_out_shared_memory ∧
      (∀ pre t, akeys new = pre ++ [t] →
        (handle_drop (dropAll st2 pre) t).2 = true) :=
  claim_C5_prepare_send_drop exDaemon 7 "p" "x" 55 4 (fun _ => .success)
    exDataflow rfl (by decide) (by decide) (by decide)

/-! ### Stopped-loop lemmas (claims C4, C6) -/

theorem stoppedLoop_cons_noChannel (rid : NodeId) (iid : DataId)
    (rest : List InputId) (d : RunningDataflow)
    (hch : alookup d.subscribe_channels rid = none) :
    stoppedLoop ((rid, iid) :: rest) d = stoppedLoop rest d := by
  simp [stoppedLoop, hch]

theorem stoppedLoop_cons_noEntry (rid : NodeId) (iid : DataId)
    (rest : List InputId) (d : RunningDataflow) (channel : Chan)
    (hch : alookup d.subscribe_channels rid = some channel)
    (hop : alookup d.open_inputs rid = none) :
    stoppedLoop ((rid, iid) :: rest) d =
      ((stoppedLoop rest d).1,
        EngineAction.sendNodeEvent channel (.inputClosed iid) none ::
          (stoppedLoop rest d).2) := by
  rcases hrec : stoppedLoop rest d with ⟨d2, a2⟩
  simp [stoppedLoop, hch, hop, hrec]

theorem stoppedLoop_cons_empty (rid : NodeId) (iid : DataId)
    (rest : List InputId) (d : RunningDataflow) (channel : Chan)
    (open_in : List DataId)
    (hch : alookup d.subscribe_channels rid = some channel)
    (hop : alookup d.open_inputs rid = some open_in)
    (hemp : open_in.erase iid = []) :
    stoppedLoop ((rid, iid) :: rest) d =
      ((stoppedLoop rest { d with
          open_inputs := aInsert rid (open_in.erase iid) d.open_inputs,
          subscribe_channels := aErase rid d.subscribe_channels }).1,
        EngineAction.sendNodeEvent channel (.inputClosed iid) none ::
          (stoppedLoop rest { d with
            open_inputs := aInsert rid (open_in.erase iid) d.open_inputs,
            subscribe_channels := aErase rid d.subscribe_channels }).2) := by
  rcases hrec : stoppedLoop rest { d with
    open_inputs := aInsert rid (open_in.erase iid) d.open_inputs,
    subscribe_channels := aErase rid d.subscribe_channels } with ⟨d2, a2⟩
  rw [hemp] at hrec
  simp [stoppedLoop, hch, hop, hemp, hrec]

theorem stoppedLoop_cons_nonempty (rid : NodeId) (iid : DataId)
    (rest : List InputId) (d : RunningDataflow) (channel : Chan)
    (open_in : List DataId)
    (hch : alookup d.subscribe_channels rid = some channel)
    (hop : alookup d.open_inputs rid = some open_in)
    (hemp : ¬open_in.erase iid = []) :
    stoppedLoop ((rid, iid) :: rest) d =
      ((stoppedLoop rest { d with
          open_inputs := aInsert rid (open_in.erase iid) d.open_inputs }).1,
        EngineAction.sendNodeEvent channel (.inputClosed iid) none ::
          (stoppedLoop rest { d with
            open_inputs := aInsert rid (open_in.erase iid) d.open_inputs }).2) := by
  rcases hrec : stoppedLoop rest { d with
    open_inputs := aInsert rid (open_in.erase iid) d.open_inputs } with ⟨d2, a2⟩
  simp [stoppedLoop, hch, hop, hemp, hrec]

theorem stoppedLoop_channels_mono (pairs : List InputId) :
    ∀ (d : RunningDataflow) (r : NodeId) (c : Chan),
    alookup (stoppedLoop pairs d).1.subscribe_channels r = some c →
    alookup d.subscribe_channels r = some c := by
  induction pairs with
  | nil => intro d r c h; exact h
  | cons p rest ih =>
    intro d r c h
    obtain ⟨rid, iid⟩ := p
    cases hch : alookup d.subscribe_channels rid with
    | none =>
      rw [stoppedLoop_cons_noChannel rid iid rest d hch] at h
      exact ih d r c h
    | some channel =>
      cases hop : alookup d.open_inputs rid with
      | none =>
        rw [stoppedLoop_cons_noEntry rid iid rest d channel hch hop] at h
        exact ih d r c h
      | some open_in =>
        by_cases hemp : open_in.erase iid = []
        · rw [stoppedLoop_cons_empty rid iid rest d channel open_in hch hop hemp] at h
          have h2 := ih { d with
            open_inputs := aInsert rid (open_in.erase iid) d.open_inputs,
            subscribe_channels := aErase rid d.subscribe_channels } r c h
          have h3 : alookup (aErase rid d.subscribe_channels) r = some c := h2
          rw [alookup_aErase] at h3
          by_cases hr : r = rid
          · rw [if_pos hr] at h3; cases h3
          · rwa [if_neg hr] at h3
        · rw [stoppedLoop_cons_nonempty rid iid rest d channel open_in hch hop hemp] at h
          exact ih { d with
            open_inputs := aInsert rid (open_in.erase iid) d.open_inputs } r c h

theorem stoppedLoop_open_shrink (pairs : List InputId) :
    ∀ (d : RunningDataflow) (r : NodeId) (s' : List DataId),
    alookup (stoppedLoop pairs d).1.open_inputs r = some s' →
    ∃ s, alookup d.open_inputs r = some s ∧ s' ⊆ s := by
  induction pairs with
  | nil => intro d r s' h; exact ⟨s', h, fun _ hx => hx⟩
  | cons p rest ih =>
    intro d r s' h
    obtain ⟨rid, iid⟩ := p
    cases hch : alookup d.subscribe_channels rid with
    | none =>
      rw [stoppedLoop_cons_noChannel rid iid rest d hch] at h
      exact ih d r s' h
    | some channel =>
      cases hop : alookup d.open_inputs rid with
      | none =>
        rw [stoppedLoop_cons_noEntry rid iid rest d channel hch hop] at h
        exact ih d r s' h
      | some open_in =>
        by_cases hemp : open_in.erase iid = []
        · rw [stoppedLoop_cons_empty rid iid rest d channel open_in hch hop hemp] at h
          obtain ⟨s1, hs1, hsub⟩ := ih { d with
            open_inputs := aInsert rid (open_in.erase iid) d.open_inputs,
            subscribe_channels := aErase rid d.subscribe_channels } r s' h
          have hs2 : alookup (aInsert rid (open_in.erase iid) d.open_inputs) r
              = some s1 := hs1
          rw [alookup_aInsert] at hs2
          by_cases hr : r = rid
          · rw [if_pos hr] at hs2
            injection hs2 with hs2
            refine ⟨open_in, by rw [hr]; exact hop, ?_⟩
            rw [← hs2] at hsub
            exact fun x hx => List.erase_subset _ _ (hsub hx)
          · rw [if_neg hr] at hs2
            exact ⟨s1, hs2, hsub⟩
        · rw [stoppedLoop_cons_nonempty rid iid rest d channel open_in hch hop hemp] at h
          obtain ⟨s1, hs1, hsub⟩ := ih { d with
            open_inputs := aInsert rid (open_in.erase iid) d.open_inputs } r s' h
          have hs2 : alookup (aInsert rid (open_in.erase iid) d.open_inputs) r
              = some s1 := hs1
          rw [alookup_aInsert] at hs2
          by_cases hr : r = rid
          · rw [if_pos hr] at hs2
            injection hs2 with hs2
            refine ⟨open_in, by rw [hr]; exact hop, ?_⟩
            rw [← hs2] at hsub
            exact fun x hx => List.erase_subset _ _ (hsub hx)
          · rw [if_neg hr] at hs2
            exact ⟨s1, hs2, hsub⟩

theorem stoppedLoop_untouched (pairs : List InputId) :
    ∀ (d : RunningDataflow) (r : NodeId), r ∉ pairs.map Prod.fst →
    alookup (stoppedLoop pairs d).1.subscribe_channels r =
      alookup d.subscribe_channels r ∧
    alookup (stoppedLoop pairs d).1.open_inputs r = alookup d.open_inputs r := by
  induction pairs with
  | nil => intro d r _; exact ⟨rfl, rfl⟩
  | cons p rest ih =>
    intro d r hr
    obtain ⟨rid, iid⟩ := p
    simp only [List.map_cons, List.mem_cons, not_or] at hr
    obtain ⟨hne, hr⟩ := hr
    cases hch : alookup d.subscribe_channels rid with
    | none =>
      rw [stoppedLoop_cons_noChannel rid iid rest d hch]
      exact ih d r hr
    | some channel =>
      cases hop : alookup d.open_inputs rid with
      | none =>
        rw [stoppedLoop_cons_noEntry rid iid rest d channel hch hop]
        exact ih d r hr
      | some open_in =>
        by_cases hemp : open_in.erase iid = []
        · rw [stoppedLoop_cons_empty rid iid rest d channel open_in hch hop hemp]
          obtain ⟨h1, h2⟩ := ih { d with
            open_inputs := aInsert rid (open_in.erase iid) d.open_inputs,
            subscribe_channels := aErase rid d.subscribe_channels } r hr
          constructor
          · rw [h1]
            have h3 : alookup { d with
                open_inputs := aInsert rid (open_in.erase iid) d.open_inputs,
                subscribe_channels := aErase rid d.subscribe_channels }.subscribe_channels r
                = alookup (aErase rid d.subscribe_channels) r := rfl
            rw [h3, alookup_aErase, if_neg hne]
          · rw [h2]
            have h3 : alookup { d with
                open_inputs := aInsert rid (open_in.erase iid) d.open_inputs,
                subscribe_channels := aErase rid d.subscribe_channels }.open_inputs r
                = alookup (aInsert rid (open_in.erase iid) d.open_inputs) r := rfl
            rw [h3, alookup_aInsert, if_neg hne]
        · rw [stoppedLoop_cons_nonempty rid iid rest d channel open_in hch hop hemp]
          obtain ⟨h1, h2⟩ := ih { d with
            open_inputs := aInsert rid (open_in.erase iid) d.open_inputs } r hr
          refine ⟨h1, ?_⟩
          rw [h2]
          have h3 : alookup { d with
              open_inputs := aInsert rid (open_in.erase iid) d.open_inputs }.open_inputs r
              = alookup (aInsert rid (open_in.erase iid) d.open_inputs) r := rfl
          rw [h3, alookup_aInsert, if_neg hne]

theorem stoppedLoop_no_empty_channel (pairs : List InputId) :
    ∀ (d : RunningDataflow) (r : NodeId), r ∈ pairs.map Prod.fst →
    ∀ c, alookup (stoppedLoop pairs d).1.subscribe_channels r = some c →
    ∀ s, alookup (stoppedLoop pairs d).1.open_inputs r = some s → s ≠ [] := by
  induction pairs with
  | nil => intro d r hr; simp at hr
  | cons p rest ih =>
    intro d r hr c hc s hs
    obtain ⟨rid, iid⟩ := p
    by_cases hrest : r ∈ rest.map Prod.fst
    · cases hch : alookup d.subscribe_channels rid with
      | none =>
        rw [stoppedLoop_cons_noChannel rid iid rest d hch] at hc hs
        exact ih d r hrest c hc s hs
      | some channel =>
        cases hop : alookup d.open_inputs rid with
        | none =>
          rw [stoppedLoop_cons_noEntry rid iid rest d channel hch hop] at hc hs
          exact ih d r hrest c hc s hs
        | some open_in =>
          by_cases hemp : open_in.erase iid = []
          · rw [stoppedLoop_cons_empty rid iid rest d channel open_in hch hop hemp] at hc hs
            exact ih _ r hrest c hc s hs
          · rw [stoppedLoop_cons_nonempty rid iid rest d channel open_in hch hop hemp] at hc hs
            exact ih _ r hrest c hc s hs
    · have hr0 : r = rid := by
        simp only [List.map_cons, List.mem_cons] at hr
        rcases hr with hr | hr
        · exact hr
        · exact absurd hr hrest
      subst hr0
      cases hch : alookup d.subscribe_channels r with
      | none =>
        rw [stoppedLoop_cons_noChannel r iid rest d hch] at hc
        have := (stoppedLoop_untouched rest d r hrest).1
        rw [this, hch] at hc
        cases hc
      | some channel =>
        cases hop : alookup d.open_inputs r with
        | none =>
          rw [stoppedLoop_cons_noEntry r iid rest d channel hch hop] at hs
          have := (stoppedLoop_untouched rest d r hrest).2
          rw [show (stoppedLoop rest d).1.open_inputs =
            ((stoppedLoop rest d).1, EngineAction.sendNodeEvent channel
              (NodeEventMsg.inputClosed iid) none ::
              (stoppedLoop rest d).2).1.open_inputs from rfl] at this
          rw [this, hop] at hs
          cases hs
        | some open_in =>
          by_cases hemp : open_in.erase iid = []
          · rw [stoppedLoop_cons_empty r iid rest d channel open_in hch hop hemp] at hc
            have h4 := (stoppedLoop_untouched rest { d with
              open_inputs := aInsert r (open_in.erase iid) d.open_inputs,
              subscribe_channels := aErase r d.subscribe_channels } r hrest).1
            rw [h4] at hc
            have h5 : alookup (aErase r d.subscribe_channels) r = some c := hc
            rw [alookup_aErase, if_pos rfl] at h5
            cases h5
          · rw [stoppedLoop_cons_nonempty r iid rest d channel open_in hch hop hemp] at hs
            have h4 := (stoppedLoop_untouched rest { d with
              open_inputs := aInsert r (open_in.erase iid) d.open_inputs } r hrest).2
            rw [h4] at hs
            have h5 : alookup (aInsert r (open_in.erase iid) d.open_inputs) r = some s := hs
            rw [alookup_aInsert, if_pos rfl] at h5
            injection h5 with h5
            rw [h5] at hemp
            exact hemp

/-- Claim C4 (amended): the global invariant fails (see
`claim_C4_cex`), but the `Stopped` handler maintains it for the
stopped node's downstream receivers: at the end of the handler, every
downstream receiver that still has a subscribe channel and has an
`open_inputs` entry has a non-empty open-input set. -/
theorem claim_C4_stopped_invariant (st : Daemon) (df : DataflowId) (n : NodeId)
    (dataflow : RunningDataflow) (acts : List EngineAction) (st' : Daemon)
    (hdf : alookup st.running df = some dataflow)
    (hrun : handle_node_event st .stopped df n = (acts, .ok st'))
    (df' : RunningDataflow) (hdf' : alookup st'.running df = some df')
    (r : NodeId) (hr : r ∈ (downstreamOf dataflow.mappings n).map Prod.fst)
    (ch : Chan) (hch : alookup df'.subscribe_channels r = some ch)
    (s : List DataId) (hs : alookup df'.open_inputs r = some s) :
    s ≠ [] := by
  simp only [handle_node_event, hdf] at hrun
  by_cases hemp :
      ((stoppedLoop (downstreamOf dataflow.mappings n) dataflow).1.running_nodes).erase n = []
  · simp only [hemp, if_pos rfl] at hrun
    simp at hrun
    rw [← hrun.2] at hdf'
    have : alookup (aErase df st.running) df = (none : Option RunningDataflow) := by
      rw [alookup_aErase, if_pos rfl]
    rw [this] at hdf'
    cases hdf'
  · simp only [hemp, if_neg hemp] at hrun
    simp at hrun
    rw [← hrun.2] at hdf'
    rw [alookup_aInsert] at hdf'
    simp at hdf'
    have hch2 : alookup (stoppedLoop (downstreamOf dataflow.mappings n) dataflow).1.subscribe_channels r = some ch := by
      rw [← hdf'] at hch
      exact hch
    have hs2 : alookup (stoppedLoop (downstreamOf dataflow.mappings n) dataflow).1.open_inputs r = some s := by
      rw [← hdf'] at hs
      exact hs
    exact stoppedLoop_no_empty_channel (downstreamOf dataflow.mappings n)
      dataflow r hr ch hch2 s hs2

/-- A dataflow where `a` (channel 1) has two open inputs: `in` from
`p` and `in2` from `q`. -/
def exTwoDaemon : Daemon :=
  { running := [(9,
      { subscribe_channels := [("a", 1)]
        mappings := [(("p", "x"), [("a", "in")]), (("q", "y"), [("a", "in2")])]
        open_inputs := [("a", ["in", "in2"])]
        running_nodes := ["p", "q", "a"] })] }

/-- `exTwoDaemon` after `p`'s `Stopped`: `a` lost input `in`, kept
input `in2` and its channel. -/
def exTwoStopped : Daemon :=
  { running := [(9,
      { subscribe_channels := [("a", 1)]
        mappings := [(("p", "x"), [("a", "in")]), (("q", "y"), [("a", "in2")])]
        open_inputs := [("a", ["in2"])]
        running_nodes := ["q", "a"] })] }

/-- Witness for `claim_C4_stopped_invariant`: after `p` stops in
`exTwoDaemon`, receiver `a` keeps channel 1 and the non-empty open
set `["in2"]`. -/
theorem claim_C4_witness : (["in2"] : List DataId) ≠ [] :=
  claim_C4_stopped_invariant exTwoDaemon 9 "p"
    { subscribe_channels := [("a", 1)]
      mappings := [(("p", "x"), [("a", "in")]), (("q", "y"), [("a", "in2")])]
      open_inputs := [("a", ["in", "in2"])]
      running_nodes := ["p", "q", "a"] }
    (handle_node_event exTwoDaemon .stopped 9 "p").1 exTwoStopped
    rfl rfl
    { subscribe_channels := [("a", 1)]
      mappings := [(("p", "x"), [("a", "in")]), (("q", "y"), [("a", "in2")])]
      open_inputs := [("a", ["in2"])]
      running_nodes := ["q", "a"] }
    rfl "a" (by decide) 1 rfl ["in2"] rfl

/-- Delivery lemma for the `Stopped` loop: if `(r, i)` is in the pair
list, no other pair targets receiver `r`, and `r` initially has a
channel `c` and an open-input entry `s`, then the loop pushes
`InputClosed i` on `c`, the final open entry for `r` is `s.erase i`,
and the final channel for `r` is dropped exactly when that entry is
empty. -/
theorem stoppedLoop_delivers (pairs : List InputId) :
    ∀ (d : RunningDataflow) (r : NodeId) (i : DataId),
    pairs.Nodup → (r, i) ∈ pairs →
    (∀ p ∈ pairs, p.1 = r → p.2 = i) →
    ∀ c, alookup d.subscribe_channels r = some c →
    ∀ s, alookup d.open_inputs r = some s →
    EngineAction.sendNodeEvent c (.inputClosed i) none ∈ (stoppedLoop pairs d).2 ∧
    alookup (stoppedLoop pairs d).1.open_inputs r = some (s.erase i) ∧
    alookup (stoppedLoop pairs d).1.subscribe_channels r =
      (if s.erase i = [] then none else some c) := by
  induction pairs with
  | nil => intro d r i _ hmem; simp at hmem
  | cons p rest ih =>
    intro d r i hnd hmem huniq c hc s hs
    obtain ⟨rid, iid⟩ := p
    by_cases hhd : (rid, iid) = (r, i)
    · injection hhd with hr hi
      subst hr; subst hi
      have hrest : rid ∉ rest.map Prod.fst := by
        intro hx
        rcases List.mem_map.mp hx with ⟨q, hq, hfst⟩
        have h2 := huniq q (List.mem_cons_of_mem _ hq) hfst
        have h3 : q = (rid, iid) := by
          rcases q with ⟨a, b⟩
          simp at hfst h2 ⊢
          exact ⟨hfst, h2⟩
        rw [h3] at hq
        exact (List.nodup_cons.mp hnd).1 hq
      by_cases hemp : s.erase iid = []
      · have heq := stoppedLoop_cons_empty rid iid rest d c s hc hs hemp
        have e1 : (stoppedLoop ((rid, iid) :: rest) d).1 =
            (stoppedLoop rest { d with
              open_inputs := aInsert rid (s.erase iid) d.open_inputs,
              subscribe_channels := aErase rid d.subscribe_channels }).1 := by
          rw [heq]
        have e2 : (stoppedLoop ((rid, iid) :: rest) d).2 =
            EngineAction.sendNodeEvent c (.inputClosed iid) none ::
            (stoppedLoop rest { d with
              open_inputs := aInsert rid (s.erase iid) d.open_inputs,
              subscribe_channels := aErase rid d.subscribe_channels }).2 := by
          rw [heq]
        rw [e1, e2]
        refine ⟨List.mem_cons_self _ _, ?_, ?_⟩
        · rw [(stoppedLoop_untouched rest { d with
            open_inputs := aInsert rid (s.erase iid) d.open_inputs,
            subscribe_channels := aErase rid d.subscribe_channels } rid hrest).2]
          show alookup (aInsert rid (s.erase iid) d.open_inputs) rid = some (s.erase iid)
          rw [alookup_aInsert, if_pos rfl]
        · rw [(stoppedLoop_untouched rest { d with
            open_inputs := aInsert rid (s.erase iid) d.open_inputs,
            subscribe_channels := aErase rid d.subscribe_channels } rid hrest).1]
          rw [if_pos hemp]
          show alookup (aErase rid d.subscribe_channels) rid = none
          rw [alookup_aErase, if_pos rfl]
      · have heq := stoppedLoop_cons_nonempty rid iid rest d c s hc hs hemp
        have e1 : (stoppedLoop ((rid, iid) :: rest) d).1 =
            (stoppedLoop rest { d with
              open_inputs := aInsert rid (s.erase iid) d.open_inputs }).1 := by
          rw [heq]
        have e2 : (stoppedLoop ((rid, iid) :: rest) d).2 =
            EngineAction.sendNodeEvent c (.inputClosed iid) none ::
            (stoppedLoop rest { d with
              open_inputs := aInsert rid (s.erase iid) d.open_inputs }).2 := by
          rw [heq]
        rw [e1, e2]
        refine ⟨List.mem_cons_self _ _, ?_, ?_⟩
        · rw [(stoppedLoop_untouched rest { d with
            open_inputs := aInsert rid (s.erase iid) d.open_inputs } rid hrest).2]
          show alookup (aInsert rid (s.erase iid) d.open_inputs) rid = some (s.erase iid)
          rw [alookup_aInsert, if_pos rfl]
        · rw [(stoppedLoop_untouched rest { d with
            open_inputs := aInsert rid (s.erase iid) d.open_inputs } rid hrest).1]
          rw [if_neg hemp]
          exact hc
    · have hne : rid ≠ r := by
        intro he
        have h2 : iid = i := huniq (rid, iid) (List.mem_cons_self _ _) he
        exact hhd (by rw [he, h2])
      have hmem' : (r, i) ∈ rest := by
        rcases List.mem_cons.mp hmem with h | h
        · exact absurd h.symm hhd
        · exact h
      have hnd' := (List.nodup_cons.mp hnd).2
      have huniq' : ∀ q ∈ rest, q.1 = r → q.2 = i :=
        fun q hq => huniq q (List.mem_cons_of_mem _ hq)
      cases hch2 : alookup d.subscribe_channels rid with
      | none =>
        rw [stoppedLoop_cons_noChannel rid iid rest d hch2]
        exact ih d r i hnd' hmem' huniq' c hc s hs
      | some channel =>
        cases hop2 : alookup d.open_inputs rid with
        | none =>
          have heq := stoppedLoop_cons_noEntry rid iid rest d channel hch2 hop2
          have e1 : (stoppedLoop ((rid, iid) :: rest) d).1 = (stoppedLoop rest d).1 := by
            rw [heq]
          have e2 : (stoppedLoop ((rid, iid) :: rest) d).2 =
              EngineAction.sendNodeEvent channel (.inputClosed iid) none ::
              (stoppedLoop rest d).2 := by
            rw [heq]
          rw [e1, e2]
          obtain ⟨m1, m2, m3⟩ := ih d r i hnd' hmem' huniq' c hc s hs
          exact ⟨List.mem_cons_of_mem _ m1, m2, m3⟩
        | some open_in =>
          by_cases hemp2 : open_in.erase iid = []
          · have heq := stoppedLoop_cons_empty rid iid rest d channel open_in hch2 hop2 hemp2
            have e1 : (stoppedLoop ((rid, iid) :: rest) d).1 =
                (stoppedLoop rest { d with
                  open_inputs := aInsert rid (open_in.erase iid) d.open_inputs,
                  subscribe_channels := aErase rid d.subscribe_channels }).1 := by
              rw [heq]
            have e2 : (stoppedLoop ((rid, iid) :: rest) d).2 =
                EngineAction.sendNodeEvent channel (.inputClosed iid) none ::
                (stoppedLoop rest { d with
                  open_inputs := aInsert rid (open_in.erase iid) d.open_inputs,
                  subscribe_channels := aErase rid d.subscribe_channels }).2 := by
              rw [heq]
            rw [e1, e2]
            have hc' : alookup (aErase rid d.subscribe_channels) r = some c := by
              rw [alookup_aErase, if_neg (Ne.symm hne)]
              exact hc
            have hs' : alookup (aInsert rid (open_in.erase iid) d.open_inputs) r = some s := by
              rw [alookup_aInsert, if_neg (Ne.symm hne)]
              exact hs
            obtain ⟨m1, m2, m3⟩ := ih { d with
              open_inputs := aInsert rid (open_in.erase iid) d.open_inputs,
              subscribe_channels := aErase rid d.subscribe_channels } r i
              hnd' hmem' huniq' c hc' s hs'
            exact ⟨List.mem_cons_of_mem _ m1, m2, m3⟩
          · have heq := stoppedLoop_cons_nonempty rid iid rest d channel open_in hch2 hop2 hemp2
            have e1 : (stoppedLoop ((rid, iid) :: rest) d).1 =
                (stoppedLoop rest { d with
                  open_inputs := aInsert rid (open_in.erase iid) d.open_inputs }).1 := by
              rw [heq]
            have e2 : (stoppedLoop ((rid, iid) :: rest) d).2 =
                EngineAction.sendNodeEvent channel (.inputClosed iid) none ::
                (stoppedLoop rest { d with
                  open_inputs := aInsert rid (open_in.erase iid) d.open_inputs }).2 := by
              rw [heq]
            rw [e1, e2]
            have hs' : alookup (aInsert rid (open_in.erase iid) d.open_inputs) r = some s := by
              rw [alookup_aInsert, if_neg (Ne.symm hne)]
              exact hs
            obtain ⟨m1, m2, m3⟩ := ih { d with
              open_inputs := aInsert rid (open_in.erase iid) d.open_inputs } r i
              hnd' hmem' huniq' c hc s hs'
            exact ⟨List.mem_cons_of_mem _ m1, m2, m3⟩

/-- Skip lemma for the `Stopped` loop: a receiver with no subscribe
channel is skipped entirely — its `open_inputs` entry is never
decremented and it never gains a channel. -/
theorem stoppedLoop_skips (pairs : List InputId) :
    ∀ (d : RunningDataflow) (r : NodeId),
    alookup d.subscribe_channels r = none →
    alookup (stoppedLoop pairs d).1.open_inputs r = alookup d.open_inputs r ∧
    alookup (stoppedLoop pairs d).1.subscribe_channels r = none := by
  induction pairs with
  | nil => intro d r h; exact ⟨rfl, h⟩
  | cons p rest ih =>
    intro d r h
    obtain ⟨rid, iid⟩ := p
    cases hch : alookup d.subscribe_channels rid with
    | none =>
      rw [stoppedLoop_cons_noChannel rid iid rest d hch]
      exact ih d r h
    | some channel =>
      have hne : ¬r = rid := by
        intro he
        rw [he] at h
        rw [h] at hch
        cases hch
      cases hop : alookup d.open_inputs rid with
      | none =>
        have heq := stoppedLoop_cons_noEntry rid iid rest d channel hch hop
        have e1 : (stoppedLoop ((rid, iid) :: rest) d).1 = (stoppedLoop rest d).1 := by
          rw [heq]
        rw [e1]
        exact ih d r h
      | some open_in =>
        by_cases hemp : open_in.erase iid = []
        · have heq := stoppedLoop_cons_empty rid iid rest d channel open_in hch hop hemp
          have e1 : (stoppedLoop ((rid, iid) :: rest) d).1 =
              (stoppedLoop rest { d with
                open_inputs := aInsert rid (open_in.erase iid) d.open_inputs,
                subscribe_channels := aErase rid d.subscribe_channels }).1 := by
            rw [heq]
          rw [e1]
          have h' : alookup (aErase rid d.subscribe_channels) r = (none : Option Chan) := by
            rw [alookup_aErase, if_neg hne]
            exact h
          obtain ⟨k1, k2⟩ := ih { d with
            open_inputs := aInsert rid (open_in.erase iid) d.open_inputs,
            subscribe_channels := aErase rid d.subscribe_channels } r h'
          refine ⟨?_, k2⟩
          rw [k1]
          show alookup (aInsert rid (open_in.erase iid) d.open_inputs) r =
            alookup d.open_inputs r
          rw [alookup_aInsert, if_neg hne]
        · have heq := stoppedLoop_cons_nonempty rid iid rest d channel open_in hch hop hemp
          have e1 : (stoppedLoop ((rid, iid) :: rest) d).1 =
              (stoppedLoop rest { d with
                open_inputs := aInsert rid (open_in.erase iid) d.open_inputs }).1 := by
            rw [heq]
          rw [e1]
          obtain ⟨k1, k2⟩ := ih { d with
            open_inputs := aInsert rid (open_in.erase iid) d.open_inputs } r h
          refine ⟨?_, k2⟩
          rw [k1]
          show alookup (aInsert rid (open_in.erase iid) d.open_inputs) r =
            alookup d.open_inputs r
          rw [alookup_aInsert, if_neg hne]


/-- One iteration of the `Stopped` notification loop (the body of the
`for` loop at source lines 499-517): if the receiver has a subscribe
channel, push `InputClosed` on it (plain awaited send, no timeout,
result ignored), remove the input from the receiver's `open_inputs`
entry if one exists, and drop the receiver's channel when that entry
becomes empty; otherwise do nothing. -/
def stoppedStep : InputId → RunningDataflow → RunningDataflow × List EngineAction
  | (receiver_id, input_id), dataflow =>
    match alookup dataflow.subscribe_channels receiver_id with
    | none => (dataflow, [])
    | some channel =>
      let act := EngineAction.sendNodeEvent channel (.inputClosed input_id) none
      let dataflow :=
        match alookup dataflow.open_inputs receiver_id with
        | none => dataflow
        | some open_in =>
          let open_in := open_in.erase input_id
          let dataflow := { dataflow with
            open_inputs := aInsert receiver_id open_in dataflow.open_inputs }
          if open_in = [] then
            { dataflow with
              subscribe_channels := aErase receiver_id dataflow.subscribe_channels }
          else dataflow
      (dataflow, [act])

/-- The `Stopped` loop is the sequential composition of its
per-pair steps. -/
theorem stoppedLoop_step_cons (p : InputId) (rest : List InputId) (d : RunningDataflow) :
    stoppedLoop (p :: rest) d =
      ((stoppedLoop rest (stoppedStep p d).1).1,
       (stoppedStep p d).2 ++ (stoppedLoop rest (stoppedStep p d).1).2) := by
  obtain ⟨rid, iid⟩ := p
  cases hch : alookup d.subscribe_channels rid with
  | none =>
    rw [stoppedLoop_cons_noChannel rid iid rest d hch]
    simp [stoppedStep, hch]
  | some channel =>
    cases hop : alookup d.open_inputs rid with
    | none =>
      rw [stoppedLoop_cons_noEntry rid iid rest d channel hch hop]
      simp [stoppedStep, hch, hop]
    | some open_in =>
      by_cases hemp : open_in.erase iid = []
      · rw [stoppedLoop_cons_empty rid iid rest d channel open_in hch hop hemp]
        simp [stoppedStep, hch, hop, hemp]
      · rw [stoppedLoop_cons_nonempty rid iid rest d channel open_in hch hop hemp]
        simp [stoppedStep, hch, hop, hemp]

/-- The `Stopped` loop splits at any point of its pair list: the
suffix runs on the state left by the prefix, and the actions
concatenate in order. -/
theorem stoppedLoop_append (pre : List InputId) :
    ∀ (post : List InputId) (d : RunningDataflow),
    stoppedLoop (pre ++ post) d =
      ((stoppedLoop post (stoppedLoop pre d).1).1,
       (stoppedLoop pre d).2 ++ (stoppedLoop post (stoppedLoop pre d).1).2) := by
  induction pre with
  | nil =>
    intro post d
    simp [stoppedLoop]
  | cons p pre' ih =>
    intro post d
    rw [List.cons_append, stoppedLoop_step_cons p (pre' ++ post) d,
      ih post (stoppedStep p d).1, stoppedLoop_step_cons p pre' d]
    simp [List.append_assoc]

/-- Claim C6 (amended): when a node's `Stopped` event is handled, the
mapped `(receiver, input)` pairs are processed sequentially and the
channel check is per pair, not per receiver. For any split of the
downstream list as `pre ++ (r, i) :: post`: the loop runs the pair
against the state left by `pre`; if the receiver has a subscribe
channel at that moment, `InputClosed i` is pushed on it with no
timeout (and reaches the handler's emitted actions), the receiver's
`open_inputs` entry is decremented by `i`, and the channel is dropped
iff the entry becomes empty; if the receiver has no channel at that
moment, the pair is skipped entirely — no push and no state change
(contrary to the original claim, see `claim_C6_cex`). -/
theorem claim_C6_stopped_notifications (st : Daemon) (df : DataflowId) (n : NodeId)
    (dataflow : RunningDataflow) (acts : List EngineAction) (st' : Daemon)
    (hdf : alookup st.running df = some dataflow)
    (hrun : handle_node_event st .stopped df n = (acts, .ok st'))
    (pre post : List InputId) (r : NodeId) (i : DataId)
    (hsplit : downstreamOf dataflow.mappings n = pre ++ (r, i) :: post) :
    stoppedLoop (downstreamOf dataflow.mappings n) dataflow =
      ((stoppedLoop post (stoppedStep (r, i) (stoppedLoop pre dataflow).1).1).1,
       (stoppedLoop pre dataflow).2 ++
         ((stoppedStep (r, i) (stoppedLoop pre dataflow).1).2 ++
          (stoppedLoop post (stoppedStep (r, i) (stoppedLoop pre dataflow).1).1).2)) ∧
    (∀ c, alookup (stoppedLoop pre dataflow).1.subscribe_channels r = some c →
      (stoppedStep (r, i) (stoppedLoop pre dataflow).1).2 =
        [EngineAction.sendNodeEvent c (.inputClosed i) none] ∧
      EngineAction.sendNodeEvent c (.inputClosed i) none ∈ acts ∧
      ∀ s, alookup (stoppedLoop pre dataflow).1.open_inputs r = some s →
        alookup (stoppedStep (r, i) (stoppedLoop pre dataflow).1).1.open_inputs r =
          some (s.erase i) ∧
        alookup (stoppedStep (r, i) (stoppedLoop pre dataflow).1).1.subscribe_channels r =
          (if s.erase i = [] then none else some c)) ∧
    (alookup (stoppedLoop pre dataflow).1.subscribe_channels r = none →
      stoppedStep (r, i) (stoppedLoop pre dataflow).1 = ((stoppedLoop pre dataflow).1, [])) := by
  have hdec : stoppedLoop (downstreamOf dataflow.mappings n) dataflow =
      ((stoppedLoop post (stoppedStep (r, i) (stoppedLoop pre dataflow).1).1).1,
       (stoppedLoop pre dataflow).2 ++
         ((stoppedStep (r, i) (stoppedLoop pre dataflow).1).2 ++
          (stoppedLoop post (stoppedStep (r, i) (stoppedLoop pre dataflow).1).1).2)) := by
    rw [hsplit, stoppedLoop_append pre ((r, i) :: post) dataflow,
      stoppedLoop_step_cons (r, i) post (stoppedLoop pre dataflow).1]
  have hX : (stoppedLoop (downstreamOf dataflow.mappings n) dataflow).2 =
      (stoppedLoop pre dataflow).2 ++
        ((stoppedStep (r, i) (stoppedLoop pre dataflow).1).2 ++
         (stoppedLoop post (stoppedStep (r, i) (stoppedLoop pre dataflow).1).1).2) := by
    rw [hdec]
  have hsub : ∀ x, x ∈ (stoppedLoop (downstreamOf dataflow.mappings n) dataflow).2 →
      x ∈ acts := by
    simp only [handle_node_event, hdf] at hrun
    by_cases hemp :
        ((stoppedLoop (downstreamOf dataflow.mappings n) dataflow).1.running_nodes).erase n = []
    · simp only [hemp, if_pos rfl] at hrun
      simp at hrun
      intro x hx
      rw [← hrun.1]
      exact List.mem_cons_of_mem _ (List.mem_append_left _ hx)
    · simp only [hemp, if_neg hemp] at hrun
      simp at hrun
      intro x hx
      rw [← hrun.1]
      exact List.mem_cons_of_mem _ hx
  refine ⟨hdec, ?_, ?_⟩
  · intro c hc
    have hstep2 : (stoppedStep (r, i) (stoppedLoop pre dataflow).1).2 =
        [EngineAction.sendNodeEvent c (.inputClosed i) none] := by
      simp [stoppedStep, hc]
    refine ⟨hstep2, ?_, ?_⟩
    · apply hsub
      rw [hX]
      refine List.mem_append_right _ (List.mem_append_left _ ?_)
      rw [hstep2]
      exact List.mem_cons_self _ _
    · intro s hs
      by_cases hemp : s.erase i = []
      · constructor
        · simp [stoppedStep, hc, hs, hemp, alookup_aInsert]
        · simp [stoppedStep, hc, hs, hemp, alookup_aErase]
      · constructor
        · simp [stoppedStep, hc, hs, hemp, alookup_aInsert]
        · simp [stoppedStep, hc, hs, hemp]
  · intro hnone
    simp [stoppedStep, hnone]

/-- A dataflow where two outputs of `p` map to inputs `in1` and `in2`
of the same receiver `a`, but only `in1` is still open: handling
`p`'s `Stopped` drops `a`'s channel on the first pair and skips the
second. -/
def exTwoOutDf : RunningDataflow :=
  { subscribe_channels := [("a", 1)]
    mappings := [(("p", "x"), [("a", "in1")]), (("p", "y"), [("a", "in2")])]
    timers := []
    open_inputs := [("a", ["in1"])]
    running_nodes := ["p", "a"] }

def exTwoOutDaemon : Daemon :=
  { running := [(8, exTwoOutDf)] }

/-- `exTwoOutDaemon` after `p`'s `Stopped`: `a` got `InputClosed in1`,
its open set emptied, its channel was dropped, and the `(a, in2)`
pair was skipped. -/
def exTwoOutStopped : Daemon :=
  { running := [(8,
      { subscribe_channels := []
        mappings := [(("p", "x"), [("a", "in1")]), (("p", "y"), [("a", "in2")])]
        timers := []
        open_inputs := [("a", [])]
        running_nodes := ["a"] })] }

/-- Witness for `claim_C6_stopped_notifications`, applied at both
splits of the downstream list of `exTwoOutDaemon`: the first pair
pushes `InputClosed in1` on channel `1` (and it reaches the handler's
actions) and drops `a`'s channel because its open set empties; the
second pair `(a, in2)` is then skipped entirely — no action, no state
change — even though `a` had a channel when the `Stopped` event
arrived. -/
theorem claim_C6_witness :
    EngineAction.sendNodeEvent 1 (NodeEventMsg.inputClosed "in1") none ∈
      (handle_node_event exTwoOutDaemon .stopped 8 "p").1 ∧
    alookup (stoppedStep ("a", "in1") exTwoOutDf).1.subscribe_channels "a" = none ∧
    stoppedStep ("a", "in2") (stoppedLoop [("a", "in1")] exTwoOutDf).1 =
      ((stoppedLoop [("a", "in1")] exTwoOutDf).1, []) := by
  have h1 := claim_C6_stopped_notifications exTwoOutDaemon 8 "p" exTwoOutDf
    (handle_node_event exTwoOutDaemon .stopped 8 "p").1 exTwoOutStopped
    rfl rfl [] [("a", "in2")] "a" "in1" (by decide)
  have h2 := claim_C6_stopped_notifications exTwoOutDaemon 8 "p" exTwoOutDf
    (handle_node_event exTwoOutDaemon .stopped 8 "p").1 exTwoOutStopped
    rfl rfl [("a", "in1")] [] "a" "in2" (by decide)
  obtain ⟨g1, g2, g3⟩ := h1.2.1 1 rfl
  obtain ⟨g4, g5⟩ := g3 ["in1"] rfl
  have e : (["in1"] : List DataId).erase "in1" = [] := by decide
  rw [e, if_pos rfl] at g5
  exact ⟨g2, g5, h2.2.2 rfl⟩
